import Mathlib

/-!
# VHASS backend: admin controller

A shallow embedding of `src/controllers/admin.js` (the course / lecture / user
handlers and the `safeDeleteFile` helper) together with the facts proved about it.

* JavaScript values are the inductive `JsVal`; a thrown value is a `JsVal` carried in
  `Except.error`.
* The document database and the upload directory are an explicit `State`; every handler
  is a function from a request and a state to the state it leaves and the `Outcome` of
  the call (a response that was sent, or an exception that left the handler).
* What the runtime and the drivers decide (the result of `Number`, of `JSON.parse`,
  whether a database call or an `unlink` rejects, which `_id` is generated) is read from
  an `Env`, so every theorem quantifies over it.
-/

namespace VHASS

/-! ## JavaScript values -/

/-- The JavaScript values the handlers look at. -/
inductive JsVal where
  | undefined : JsVal
  | null : JsVal
  | bool (b : Bool) : JsVal
  | num (n : Int) : JsVal
  | nan : JsVal
  | str (s : String) : JsVal
  | arr (items : List JsVal) : JsVal
  | obj (props : List (String × JsVal)) : JsVal

namespace JsVal

/-- Truthiness, the test behind `!x`, `x || y` and `x ? a : b`. -/
def truthy : JsVal → Bool
  | undefined => false
  | null => false
  | bool b => b
  | num n => n != 0
  | nan => false
  | str s => s != ""
  | arr _ => true
  | obj _ => true

/-- The value of `a || b`. -/
def or (a b : JsVal) : JsVal :=
  if a.truthy then a else b

/-- Own property lookup in a property list; an absent key reads as `undefined`. -/
def lookup (k : String) : List (String × JsVal) → JsVal
  | [] => undefined
  | (k', v) :: rest => if k' = k then v else lookup k rest

/-- The value thrown when a property is read from `undefined` or `null`. -/
def typeError : JsVal :=
  obj [("name", str "TypeError"), ("message", str "Cannot read properties of undefined or null")]

/-- Property read `v.k`: throws a `TypeError` on `undefined` and `null`. -/
def getProp (v : JsVal) (k : String) : Except JsVal JsVal :=
  match v with
  | undefined => .error typeError
  | null => .error typeError
  | obj props => .ok (lookup k props)
  | _ => .ok undefined

/-- Optional read `v?.k`: `undefined` on `undefined` and `null`, never throws. -/
def optProp (v : JsVal) (k : String) : JsVal :=
  match v with
  | obj props => lookup k props
  | _ => undefined

/-- Optional element read `v?.[0]`. -/
def optFirst (v : JsVal) : JsVal :=
  match v with
  | arr (x :: _) => x
  | obj props => lookup "0" props
  | str s => if s = "" then undefined else str (s.take 1)
  | _ => undefined

/-- Strict equality with a string literal, `v === "lit"`. -/
def isStr (v : JsVal) (lit : String) : Bool :=
  match v with
  | str s => s == lit
  | _ => false

end JsVal

open JsVal

/-! ## Records, state, environment -/

/-- Modelled from the spec: the schema `models/Courses.js` is not among the sources. A
course document has the fields the data model lists for a Course, under the names
`createCourse` writes them with. -/
structure Course where
  _id : String
  title : JsVal
  description : JsVal
  createdBy : JsVal
  image : JsVal
  duration : JsVal
  price : JsVal
  category : JsVal
  syllabus : JsVal
  whoShouldAttend : JsVal
  prerequisites : JsVal

/-- Modelled from the spec: the schema `models/Lecture.js` is not among the sources. A
lecture document has the fields the data model lists for a Lecture, under the names
`addLectures` writes them with; `course` is the `_id` of the owning course. -/
structure Lecture where
  _id : String
  title : JsVal
  description : JsVal
  course : String
  video : JsVal

/-- Modelled from the spec: the schema `models/User.js` is not among the sources. A user
document has the fields the data model lists for a User (with the credential field
`password`), under the names the handlers use; `subscription` holds course `_id`s. -/
structure User where
  _id : String
  name : JsVal
  email : JsVal
  avatar : JsVal
  password : JsVal
  role : JsVal
  mainrole : JsVal
  subscription : List String

/-- The database collections and the files present on disk. A file is listed under the
location it has on disk, the one `Env.resolve` gives for each path that names it. -/
structure State where
  courses : List Course
  lectures : List Lecture
  users : List User
  workshops : Nat
  files : List String

/-- The part of an Express request the handlers read. -/
structure Request where
  /-- The route parameter `req.params.id`. -/
  paramsId : JsVal
  /-- The parsed body `req.body`. The parsers mounted in `index.js` before the routes
  (`express.json()`, `express.urlencoded()`) leave the empty object for a request that has
  no body, so a handler behind them never sees `undefined` here. -/
  body : JsVal
  /-- The single upload `req.file`. -/
  file : JsVal
  /-- The uploads by field `req.files`. -/
  files : JsVal
  /-- The authenticated principal `req.user`. -/
  user : JsVal

/-- What the runtime, the database driver and the file system decide for one call. -/
structure Env where
  /-- The builtin `Number(v)`. -/
  Number : JsVal → JsVal
  /-- The builtin `JSON.parse(v)`; `Except.error` is the thrown `SyntaxError`. -/
  jsonParse : JsVal → Except JsVal JsVal
  /-- With `dbFault k = some e` the `k`-th awaited database call of the handler rejects
  with `e`; with `none` it completes. -/
  dbFault : Nat → Option JsVal
  /-- With `unlinkFault p = some msg` the call `fs.unlink p` rejects with an `Error` whose
  message is `msg` (permission, I/O); with `none` it removes the file. -/
  unlinkFault : String → Option String
  /-- The location on disk of the file a path names: `fs` resolves the path against the
  working directory and normalises it, so several paths may name one file. -/
  resolve : String → String
  /-- The `_id` generated for a document created by this call. -/
  newId : String
  /-- The value of `process.env.NODE_ENV === "development"`. -/
  development : Bool

/-- A response written with `res.status(..).json(..)`; `res.json(..)` alone has status 200. -/
structure Response where
  status : Nat
  body : JsVal

/-- How a handler call ends: a response was sent, or an exception left the handler. -/
inductive Outcome where
  | sent (r : Response) : Outcome
  | escaped (err : JsVal) : Outcome

/-- The outcome of `try { body } catch (error) { handler }`: the state is the one the body
left, also when it threw; an exception thrown inside the catch block leaves the handler.
The `finally { next() }` of the handlers only hands control to the router and is not
part of the model. -/
def tryCatch (body : State × Except JsVal Response) (handler : JsVal → Except JsVal Response) :
    State × Outcome :=
  match body with
  | (st, .ok r) => (st, .sent r)
  | (st, .error error) =>
    match handler error with
    | .ok r => (st, .sent r)
    | .error e => (st, .escaped e)

/-- The value a rejected database call throws, if call number `k` rejects. -/
def awaitDb (env : Env) (k : Nat) : Except JsVal Unit :=
  match env.dbFault k with
  | some e => .error e
  | none => .ok ()

/-- The error of an insert whose `_id` is already in the collection. -/
def duplicateKey : JsVal :=
  obj [("name", str "MongoServerError"), ("message", str "E11000 duplicate key error")]

/-! ## Serialisation of documents into response bodies -/

/-- The JSON form of a course document. -/
def Course.toJs (c : Course) : JsVal :=
  obj [("_id", str c._id), ("title", c.title), ("description", c.description),
    ("createdBy", c.createdBy), ("image", c.image), ("duration", c.duration),
    ("price", c.price), ("category", c.category), ("syllabus", c.syllabus),
    ("whoShouldAttend", c.whoShouldAttend), ("prerequisites", c.prerequisites)]

/-- The JSON form of a lecture document. -/
def Lecture.toJs (l : Lecture) : JsVal :=
  obj [("_id", str l._id), ("title", l.title), ("description", l.description),
    ("course", str l.course), ("video", l.video)]

/-- The JSON form of a user document. -/
def User.toJs (u : User) : JsVal :=
  obj [("_id", str u._id), ("name", u.name), ("email", u.email), ("avatar", u.avatar),
    ("password", u.password), ("role", u.role), ("mainrole", u.mainrole),
    ("subscription", arr (u.subscription.map str))]

/-- The JSON form of a user document read with `.select("-password")`. -/
def User.toJsNoPassword (u : User) : JsVal :=
  obj [("_id", str u._id), ("name", u.name), ("email", u.email), ("avatar", u.avatar),
    ("role", u.role), ("mainrole", u.mainrole),
    ("subscription", arr (u.subscription.map str))]

/-! ## Database operations

The Mongoose calls of the handlers, on collections kept as lists in insertion order. A
call that rejects is decided by `Env.dbFault` at the call site; the functions below are what
a call does when it completes. -/

/-- The call `Courses.findById(id)`: the document with that `_id`, or `null`. -/
def Courses.findById (st : State) (id : JsVal) : Option Course :=
  match id with
  | str s => st.courses.find? (fun c => c._id == s)
  | _ => none

/-- The call `Courses.create(doc)`: inserts the document; a duplicate `_id` is rejected. -/
def Courses.create (st : State) (doc : Course) : State × Except JsVal Course :=
  if st.courses.any (fun c => c._id == doc._id) then (st, .error duplicateKey)
  else ({ st with courses := st.courses ++ [doc] }, .ok doc)

/-- The call `course.deleteOne()`: removes the document with the `_id` of `course`. -/
def Courses.deleteOne (st : State) (course : Course) : State :=
  { st with courses := st.courses.eraseP (fun c => c._id == course._id) }

/-- The call `Lecture.findById(id)`. -/
def Lecture.findById (st : State) (id : JsVal) : Option Lecture :=
  match id with
  | str s => st.lectures.find? (fun l => l._id == s)
  | _ => none

/-- The call `Lecture.find({ course: courseId })`. -/
def Lecture.find (st : State) (courseId : String) : List Lecture :=
  st.lectures.filter (fun l => l.course == courseId)

/-- The call `Lecture.create(lectureData)`: inserts the document; a duplicate `_id` is
rejected. -/
def Lecture.create (st : State) (doc : Lecture) : State × Except JsVal Lecture :=
  if st.lectures.any (fun l => l._id == doc._id) then (st, .error duplicateKey)
  else ({ st with lectures := st.lectures ++ [doc] }, .ok doc)

/-- The call `lecture.deleteOne()`. -/
def Lecture.deleteOne (st : State) (lecture : Lecture) : State :=
  { st with lectures := st.lectures.eraseP (fun l => l._id == lecture._id) }

/-- The call `Lecture.deleteMany({ course: id })`. -/
def Lecture.deleteMany (st : State) (id : JsVal) : State :=
  match id with
  | str s => { st with lectures := st.lectures.filter (fun l => l.course != s) }
  | _ => st

/-- The call `User.findById(id)`. -/
def User.findById (st : State) (id : JsVal) : Option User :=
  match id with
  | str s => st.users.find? (fun u => u._id == s)
  | _ => none

/-- The collection after the stored document with the `_id` of `u` is replaced by `u`. -/
def User.replace (u : User) : List User → List User
  | [] => []
  | x :: rest => if x._id == u._id then u :: rest else x :: User.replace u rest

/-- The call `user.save()`: writes the in-memory document over the stored one. -/
def User.save (st : State) (u : User) : State :=
  { st with users := User.replace u st.users }

/-- The effect of `{ $pull: { subscription: s } }` on one user document. -/
def User.pull (s : String) (u : User) : User :=
  { u with subscription := u.subscription.filter (fun c => c != s) }

/-- The call `User.updateMany({}, { $pull: { subscription: id } })`. -/
def User.pullSubscription (st : State) (id : JsVal) : State :=
  match id with
  | str s => { st with users := st.users.map (User.pull s) }
  | _ => st

/-- The call `User.find({ _id: { $ne: id } })`. -/
def User.findOthers (st : State) (id : JsVal) : List User :=
  match id with
  | str s => st.users.filter (fun u => u._id != s)
  | _ => st.users

/-! ## Asset store -/

/-- The call `existsAsync(filePath)`: `fs.exists` answers `true` when the file the path
resolves to is present, `false` for anything else, `undefined` included, and never
rejects. -/
def existsAsync (env : Env) (st : State) (filePath : JsVal) : Bool :=
  match filePath with
  | str p => st.files.contains (env.resolve p)
  | _ => false

/-- The call `unlinkAsync(p)`: removes the file the path resolves to, or rejects. -/
def unlinkAsync (env : Env) (st : State) (p : String) : Except String State :=
  match env.unlinkFault p with
  | some msg => .error msg
  | none => .ok { st with files := st.files.filter (fun q => q != env.resolve p) }

/-- The helper `safeDeleteFile(filePath)`: deletes the file when it exists; a rejection of
`unlink` is caught and logged, so the call always completes. -/
def safeDeleteFile (env : Env) (st : State) (filePath : JsVal) : State :=
  if existsAsync env st filePath then
    match filePath with
    | str p =>
      match unlinkAsync env st p with
      | .ok st' => st'
      | .error _ => st
    | _ => st
  else st

/-! ## createCourse -/

/-- The list sent under `requiredFields` by the validation failure of `createCourse`. -/
def requiredFields : JsVal :=
  arr [str "title", str "description", str "createdBy", str "duration", str "price",
    str "category"]

/-- The 400 response of `createCourse`. -/
def missingFieldsResponse : Response :=
  ⟨400, obj [("message", str "Missing required fields"), ("requiredFields", requiredFields)]⟩

/-- The value of `field ? JSON.parse(field) : []`. -/
def parseOrEmpty (env : Env) (field : JsVal) : Except JsVal JsVal :=
  if field.truthy then env.jsonParse field else .ok (arr [])

/-- The argument of `Courses.create` in `createCourse`, evaluated left to right. -/
def createCourseDoc (env : Env) (req : Request)
    (title description createdBy duration price category image : JsVal) :
    Except JsVal Course := do
  let syllabus ← parseOrEmpty env (← getProp req.body "syllabus")
  let whoShouldAttend ← parseOrEmpty env (← getProp req.body "whoShouldAttend")
  let prerequisites ← parseOrEmpty env (← getProp req.body "prerequisites")
  pure {
    _id := env.newId
    title := title
    description := description
    createdBy := createdBy
    image := optProp image "path"
    duration := env.Number duration
    price := env.Number price
    category := category
    syllabus := syllabus
    whoShouldAttend := whoShouldAttend
    prerequisites := prerequisites }

/-- The `try` block of `createCourse`. -/
def createCourseTry (env : Env) (req : Request) (st : State)
    (title description createdBy duration price category image : JsVal) :
    State × Except JsVal Response :=
  match createCourseDoc env req title description createdBy duration price category image with
  | .error e => (st, .error e)
  | .ok doc =>
    match awaitDb env 0 with
    | .error e => (st, .error e)
    | .ok () =>
      match Courses.create st doc with
      | (st', .error e) => (st', .error e)
      | (st', .ok course) =>
        (st', .ok ⟨201, obj [("message", str "Course Created Successfully"),
          ("course", course.toJs)]⟩)

/-- The `catch` block of `createCourse`. -/
def createCourseCatch (error : JsVal) : Except JsVal Response := do
  let message ← getProp error "message"
  let errors ← getProp error "errors"
  pure ⟨500, obj [("message", str "Failed to create course"), ("error", message),
    ("details", JsVal.or errors (obj []))]⟩

/-- The six bindings of `const { title, ... } = req.body`, which stands before the `try`. -/
def createCourseFields (body : JsVal) :
    Except JsVal (JsVal × JsVal × JsVal × JsVal × JsVal × JsVal) := do
  let title ← getProp body "title"
  let description ← getProp body "description"
  let createdBy ← getProp body "createdBy"
  let duration ← getProp body "duration"
  let price ← getProp body "price"
  let category ← getProp body "category"
  pure (title, description, createdBy, duration, price, category)

/-- The handler `createCourse`. -/
def createCourse (env : Env) (req : Request) (st : State) : State × Outcome :=
  match createCourseFields req.body with
  | .error e => (st, .escaped e)
  | .ok (title, description, createdBy, duration, price, category) =>
    if !title.truthy || !description.truthy || !createdBy.truthy || !duration.truthy
        || !price.truthy || !category.truthy then
      (st, .sent missingFieldsResponse)
    else
      let image := JsVal.or req.file (optProp req.files "file")
      tryCatch
        (createCourseTry env req st title description createdBy duration price category image)
        createCourseCatch

/-! ## addLectures -/

/-- The value of `Object.values(v)`; throws on `undefined` and `null`. -/
def objectValues (v : JsVal) : Except JsVal (List JsVal) :=
  match v with
  | undefined => .error typeError
  | null => .error typeError
  | obj props => .ok (props.map Prod.snd)
  | arr items => .ok items
  | str s => .ok (s.toList.map (fun c => str c.toString))
  | _ => .ok []

/-- The uploaded file of `addLectures`: `files?.file?.[0] || req.file || req.body.file`. -/
def lectureFile (req : Request) : Except JsVal JsVal :=
  let first := JsVal.or (optFirst (optProp req.files "file")) req.file
  if first.truthy then .ok first else getProp req.body "file"

/-- The `try` block of `addLectures`. -/
def addLecturesTry (env : Env) (req : Request) (st : State) : State × Except JsVal Response :=
  if !req.paramsId.truthy then
    (st, .ok ⟨400, obj [("message", str "Course ID is required")]⟩)
  else
    match awaitDb env 0 with
    | .error e => (st, .error e)
    | .ok () =>
      match Courses.findById st req.paramsId with
      | none => (st, .ok ⟨404, obj [("message", str "No Course with this id")]⟩)
      | some course =>
        match getProp req.body "title", getProp req.body "description" with
        | .error e, _ => (st, .error e)
        | _, .error e => (st, .error e)
        | .ok title, .ok description =>
          if !title.truthy || !description.truthy then
            (st, .ok ⟨400, obj [("message", str "Title and description are required")]⟩)
          else
            match lectureFile req with
            | .error e => (st, .error e)
            | .ok file =>
              let video := if file.truthy then JsVal.or (optProp file "path") file else undefined
              let lectureData : Lecture :=
                { _id := env.newId, title := title, description := description,
                  course := course._id, video := video }
              match awaitDb env 1 with
              | .error e => (st, .error e)
              | .ok () =>
                match Lecture.create st lectureData with
                | (st', .error e) => (st', .error e)
                | (st', .ok lecture) =>
                  (st', .ok ⟨201, obj [("message", str "Lecture Added Successfully"),
                    ("lecture", lecture.toJs)]⟩)

/-- The arrow function `err => ({ field: err.path, message: err.message })` of the `catch`
block of `addLectures`. -/
def validationEntry (err : JsVal) : Except JsVal JsVal := do
  let field ← getProp err "path"
  let message ← getProp err "message"
  pure (obj [("field", field), ("message", message)])

/-- The `catch` block of `addLectures`. -/
def addLecturesCatch (env : Env) (error : JsVal) : Except JsVal Response := do
  let name ← getProp error "name"
  if isStr name "ValidationError" then
    let values ← objectValues (← getProp error "errors")
    let errors ← values.mapM validationEntry
    pure ⟨400, obj [("message", str "Validation Error"), ("errors", arr errors)]⟩
  else
    let message ← getProp error "message"
    let details ← if env.development then getProp error "stack" else pure undefined
    pure ⟨500, obj [("message", str "Failed to add lecture"), ("error", message),
      ("name", name), ("details", details)]⟩

/-- The handler `addLectures`. -/
def addLectures (env : Env) (req : Request) (st : State) : State × Outcome :=
  tryCatch (addLecturesTry env req st) (addLecturesCatch env)

/-! ## deleteLecture, deleteCourse -/

/-- The `catch` block shared in shape by the remaining handlers:
`res.status(500).json({ message, error: error.message })`. -/
def failureCatch (message : String) (error : JsVal) : Except JsVal Response := do
  let errorMessage ← getProp error "message"
  pure ⟨500, obj [("message", str message), ("error", errorMessage)]⟩

/-- The `try` block of `deleteLecture`. -/
def deleteLectureTry (env : Env) (req : Request) (st : State) : State × Except JsVal Response :=
  match awaitDb env 0 with
  | .error e => (st, .error e)
  | .ok () =>
    match Lecture.findById st req.paramsId with
    | none => (st, .ok ⟨404, obj [("message", str "Lecture not found")]⟩)
    | some lecture =>
      let st1 := safeDeleteFile env st lecture.video
      match awaitDb env 1 with
      | .error e => (st1, .error e)
      | .ok () =>
        (Lecture.deleteOne st1 lecture,
          .ok ⟨200, obj [("message", str "Lecture Deleted Successfully")]⟩)

/-- The handler `deleteLecture`. -/
def deleteLecture (env : Env) (req : Request) (st : State) : State × Outcome :=
  tryCatch (deleteLectureTry env req st) (failureCatch "Failed to delete lecture")

/-- The `Promise.all` over the lectures of a course: every video goes through
`safeDeleteFile`. The calls are taken one after the other; an interleaving in which two
calls meet on one path ends with the same files, the later `unlink` being rejected and
caught. -/
def deleteVideos (env : Env) (st : State) (lectures : List Lecture) : State :=
  lectures.foldl (fun s lecture => safeDeleteFile env s lecture.video) st

/-- The `try` block of `deleteCourse`. -/
def deleteCourseTry (env : Env) (req : Request) (st : State) : State × Except JsVal Response :=
  match awaitDb env 0 with
  | .error e => (st, .error e)
  | .ok () =>
    match Courses.findById st req.paramsId with
    | none => (st, .ok ⟨404, obj [("message", str "Course not found")]⟩)
    | some course =>
      match awaitDb env 1 with
      | .error e => (st, .error e)
      | .ok () =>
        let lectures := Lecture.find st course._id
        let st1 := deleteVideos env st lectures
        let st2 := safeDeleteFile env st1 course.image
        match awaitDb env 2 with
        | .error e => (st2, .error e)
        | .ok () =>
          let st3 := Lecture.deleteMany st2 req.paramsId
          match awaitDb env 3 with
          | .error e => (st3, .error e)
          | .ok () =>
            let st4 := Courses.deleteOne st3 course
            match awaitDb env 4 with
            | .error e => (st4, .error e)
            | .ok () =>
              (User.pullSubscription st4 req.paramsId,
                .ok ⟨200, obj [("message", str "Course Deleted Successfully")]⟩)

/-- The handler `deleteCourse`. -/
def deleteCourse (env : Env) (req : Request) (st : State) : State × Outcome :=
  tryCatch (deleteCourseTry env req st) (failureCatch "Failed to delete course")

/-! ## getAllStats, getAllUser -/

/-- The `try` block of `getAllStats`: four `countDocuments` calls. -/
def getAllStatsTry (env : Env) (st : State) : State × Except JsVal Response :=
  match awaitDb env 0, awaitDb env 1, awaitDb env 2, awaitDb env 3 with
  | .error e, _, _, _ => (st, .error e)
  | _, .error e, _, _ => (st, .error e)
  | _, _, .error e, _ => (st, .error e)
  | _, _, _, .error e => (st, .error e)
  | .ok (), .ok (), .ok (), .ok () =>
    (st, .ok ⟨200, obj [("courses", num st.courses.length), ("lectures", num st.lectures.length),
      ("users", num st.users.length), ("workshops", num st.workshops)]⟩)

/-- The handler `getAllStats`. -/
def getAllStats (env : Env) (_req : Request) (st : State) : State × Outcome :=
  tryCatch (getAllStatsTry env st) (failureCatch "Failed to retrieve stats")

/-- The `try` block of `getAllUser`. -/
def getAllUserTry (env : Env) (req : Request) (st : State) : State × Except JsVal Response :=
  match getProp req.user "_id" with
  | .error e => (st, .error e)
  | .ok self =>
    match awaitDb env 0 with
    | .error e => (st, .error e)
    | .ok () =>
      (st, .ok ⟨200, obj [("users", arr ((User.findOthers st self).map User.toJsNoPassword))]⟩)

/-- The handler `getAllUser`. -/
def getAllUser (env : Env) (req : Request) (st : State) : State × Outcome :=
  tryCatch (getAllUserTry env req st) (failureCatch "Failed to retrieve users")

/-! ## updateRole, updateUser -/

/-- The `try` block of `updateRole`. -/
def updateRoleTry (env : Env) (req : Request) (st : State) : State × Except JsVal Response :=
  match getProp req.body "id", getProp req.body "role" with
  | .error e, _ => (st, .error e)
  | _, .error e => (st, .error e)
  | .ok id, .ok role =>
    match awaitDb env 0 with
    | .error e => (st, .error e)
    | .ok () =>
      match User.findById st id with
      | none => (st, .ok ⟨404, obj [("message", str "User not found")]⟩)
      | some found =>
        let user := { found with role := role, mainrole := role }
        match awaitDb env 1 with
        | .error e => (st, .error e)
        | .ok () =>
          (User.save st user, .ok ⟨200, obj [("message", str "Role Updated"),
            ("user", user.toJs)]⟩)

/-- The handler `updateRole`. -/
def updateRole (env : Env) (req : Request) (st : State) : State × Outcome :=
  tryCatch (updateRoleTry env req st) (failureCatch "Failed to update role")

/-- The three conditional assignments of `updateUser`. -/
def applyProfile (name email avatar : JsVal) (user : User) : User :=
  let user := if name.truthy then { user with name := name } else user
  let user := if email.truthy then { user with email := email } else user
  if avatar.truthy then { user with avatar := avatar } else user

/-- The `try` block of `updateUser`. A requester that is not in the collection makes
`user` `null`, and the first write or the `save` throws a `TypeError`. -/
def updateUserTry (env : Env) (req : Request) (st : State) : State × Except JsVal Response :=
  match getProp req.body "name", getProp req.body "email", getProp req.body "avatar" with
  | .error e, _, _ => (st, .error e)
  | _, .error e, _ => (st, .error e)
  | _, _, .error e => (st, .error e)
  | .ok name, .ok email, .ok avatar =>
    match getProp req.user "_id" with
    | .error e => (st, .error e)
    | .ok self =>
      match awaitDb env 0 with
      | .error e => (st, .error e)
      | .ok () =>
        match User.findById st self with
        | none => (st, .error typeError)
        | some found =>
          let user := applyProfile name email avatar found
          match awaitDb env 1 with
          | .error e => (st, .error e)
          | .ok () =>
            (User.save st user, .ok ⟨200, obj [("message", str "Profile Updated"),
              ("user", user.toJs)]⟩)

/-- The handler `updateUser`. -/
def updateUser (env : Env) (req : Request) (st : State) : State × Outcome :=
  tryCatch (updateUserTry env req st) (failureCatch "Failed to update profile")

/-- Referential consistency: every lecture references a course of the collection, and
every subscription of every user names a course of the collection. -/
def Consistent (st : State) : Prop :=
  (∀ l ∈ st.lectures, ∃ c ∈ st.courses, c._id = l.course)
    ∧ (∀ u ∈ st.users, ∀ s ∈ u.subscription, ∃ c ∈ st.courses, c._id = s)

instance (st : State) : Decidable (Consistent st) := by
  unfold Consistent
  infer_instance

/-- One call of a state-changing handler, with the environment it runs in. -/
inductive Op where
  | createCourse (env : Env) (req : Request) : Op
  | addLectures (env : Env) (req : Request) : Op
  | deleteLecture (env : Env) (req : Request) : Op
  | deleteCourse (env : Env) (req : Request) : Op
  | updateRole (env : Env) (req : Request) : Op
  | updateUser (env : Env) (req : Request) : Op

/-- The state a call leaves. -/
def Op.run : Op → State → State
  | .createCourse env req, st => (VHASS.createCourse env req st).1
  | .addLectures env req, st => (VHASS.addLectures env req st).1
  | .deleteLecture env req, st => (VHASS.deleteLecture env req st).1
  | .deleteCourse env req, st => (VHASS.deleteCourse env req st).1
  | .updateRole env req, st => (VHASS.updateRole env req st).1
  | .updateUser env req, st => (VHASS.updateUser env req st).1

/-- A call is fully completed when its cascade is not cut short: no database call of a
`deleteCourse` rejects. The other handlers write at most once, so any run of them counts. -/
def Op.completes : Op → Prop
  | .deleteCourse env _ => ∀ k, env.dbFault k = none
  | _ => True

/-- The state after a sequence of calls, one after the other. -/
def runAll (ops : List Op) (st : State) : State :=
  ops.foldl (fun s op => op.run s) st

/-- Rejections are error values: no database call and no `JSON.parse` rejects with
`undefined` or `null`. -/
def Env.throwsValues (env : Env) : Prop :=
  (∀ k e, env.dbFault k = some e → e ≠ undefined ∧ e ≠ null)
    ∧ (∀ v e, env.jsonParse v = .error e → e ≠ undefined ∧ e ≠ null)

/-- A rejection named `ValidationError` has the shape Mongoose gives it: `errors` is an
object whose values are objects or primitives, none `undefined` or `null`. -/
def ValidationShaped (e : JsVal) : Prop :=
  isStr (optProp e "name") "ValidationError" = true →
    ∃ entries, optProp e "errors" = obj entries
      ∧ ∀ entry ∈ entries, entry.2 ≠ undefined ∧ entry.2 ≠ null

/-- Every rejection of a database call is `ValidationShaped`. -/
def Env.validationShaped (env : Env) : Prop :=
  ∀ k e, env.dbFault k = some e → ValidationShaped e

/-- The result of the `try` block of `addLectures` that its `catch` block can turn into a
response. -/
def LectureCatchable (result : Except JsVal Response) : Prop :=
  match result with
  | .ok r => r.status ∈ [200, 201, 400, 404, 500]
  | .error e => (e ≠ undefined ∧ e ≠ null) ∧ ValidationShaped e

/-- The result of a `try` block that its `catch` block can turn into a response: a
response with one of the five statuses, or a thrown value other than `undefined` and
`null`. -/
def Catchable (result : Except JsVal Response) : Prop :=
  match result with
  | .ok r => r.status ∈ [200, 201, 400, 404, 500]
  | .error e => e ≠ undefined ∧ e ≠ null

/-- The call ended with a response whose status is 200, 201, 400, 404 or 500. -/
def Responded (outcome : Outcome) : Prop :=
  ∃ r, outcome = .sent r ∧ r.status ∈ [200, 201, 400, 404, 500]

/-! ## Sample data -/

/-- A sample `Number`: numbers are kept, two numeric strings are converted, anything
else is `NaN`. -/
def sampleNumber : JsVal → JsVal
  | num n => num n
  | str "40" => num 40
  | str "499" => num 499
  | _ => nan

/-- A sample `JSON.parse` that knows two texts and rejects the rest. -/
def sampleJsonParse : JsVal → Except JsVal JsVal
  | str "[]" => .ok (arr [])
  | str "[1,2]" => .ok (arr [num 1, num 2])
  | _ => .error (obj [("name", str "SyntaxError"), ("message", str "Unexpected token")])

/-- A sample path resolution, relative to the working directory: a leading `./` is
dropped. -/
def sampleResolve (p : String) : String :=
  match p.data with
  | '.' :: '/' :: rest => String.mk rest
  | _ => p

/-- An environment in which no database call and no `unlink` rejects. -/
def sampleEnv : Env :=
  { Number := sampleNumber
    jsonParse := sampleJsonParse
    dbFault := fun _ => none
    unlinkFault := fun _ => none
    resolve := sampleResolve
    newId := "n1"
    development := false }

/-- An environment in which every `unlink` is rejected. -/
def lockedEnv : Env :=
  { sampleEnv with unlinkFault := fun _ => some "EACCES: permission denied" }

/-- An environment in which every database call is rejected by an `Error`. -/
def failingEnv : Env :=
  { sampleEnv with
    dbFault := fun _ =>
      some (obj [("name", str "MongoNetworkError"), ("message", str "connection closed")]) }

/-- An environment in which the second database call, the insert of `addLectures`, is
rejected by a Mongoose `ValidationError`. -/
def validationEnv : Env :=
  { sampleEnv with
    dbFault := fun k =>
      if k = 1 then
        some (obj [("name", str "ValidationError"), ("message", str "Lecture validation failed"),
          ("errors", obj [("title", obj [("path", str "title"),
            ("message", str "Path title is required.")])])])
      else none }

/-- An environment in which the last database call of `deleteCourse`, the `updateMany`
on the users, is rejected. -/
def interruptedEnv : Env :=
  { sampleEnv with
    dbFault := fun k =>
      if k = 4 then
        some (obj [("name", str "MongoNetworkError"), ("message", str "connection closed")])
      else none }

/-- A course with an image and no list fields. -/
def sampleCourse (id image : String) : Course :=
  { _id := id, title := str "Web security", description := str "An introduction",
    createdBy := str "admin", image := str image, duration := num 40, price := num 499,
    category := str "security", syllabus := arr [], whoShouldAttend := arr [],
    prerequisites := arr [] }

/-- A lecture of a course with a video. -/
def sampleLecture (id course video : String) : Lecture :=
  { _id := id, title := str "Lecture", description := str "Text", course := course,
    video := str video }

/-- A user with the given subscriptions. -/
def sampleUser (id : String) (subscription : List String) : User :=
  { _id := id, name := str "Asha", email := str "asha@example.org", avatar := undefined,
    password := str "hash", role := str "user", mainrole := str "user",
    subscription := subscription }

/-- Two courses, three lectures, two users and the five files they name. -/
def sampleState : State :=
  { courses := [sampleCourse "c1" "uploads/c1.png", sampleCourse "c2" "uploads/c2.png"]
    lectures := [sampleLecture "l1" "c1" "uploads/l1.mp4", sampleLecture "l2" "c1" "uploads/l2.mp4",
      sampleLecture "l3" "c2" "uploads/l3.mp4"]
    users := [sampleUser "u1" ["c1", "c2"], sampleUser "u2" ["c2"]]
    workshops := 0
    files := ["uploads/c1.png", "uploads/c2.png", "uploads/l1.mp4", "uploads/l2.mp4",
      "uploads/l3.mp4"] }

/-- A request with nothing but a route parameter. -/
def idRequest (id : String) : Request :=
  { paramsId := str id, body := obj [], file := undefined, files := undefined,
    user := undefined }

/-- A request with nothing but a body. -/
def bodyRequest (body : JsVal) : Request :=
  { paramsId := undefined, body := body, file := undefined, files := undefined,
    user := undefined }

/-- A complete `createCourse` body in text form, with a syllabus. -/
def syllabusCourseBody : JsVal :=
  obj [("title", str "Networks"), ("description", str "Packets"), ("createdBy", str "admin"),
    ("duration", str "40"), ("price", str "499"), ("category", str "security"),
    ("syllabus", str "[1,2]")]

/-- A `createCourse` body in text form that lacks only the title. -/
def noTitleBody : JsVal :=
  obj [("description", str "Packets"), ("createdBy", str "admin"),
    ("duration", str "40"), ("price", str "499"), ("category", str "security")]

/-- The sample state after a lecture of course `c1` was added whose body names the image
of course `c2` under another path, `./uploads/c2.png`. -/
def aliasedAssetState : State :=
  (addLectures { sampleEnv with newId := "l9" }
    { idRequest "c1" with body := obj [("title", str "Extra"), ("description", str "Text"),
        ("file", str "./uploads/c2.png")] }
    sampleState).1

/-- A complete `addLectures` request for the course `id`. -/
def lectureRequest (id : String) : Request :=
  { idRequest id with body := obj [("title", str "Extra"), ("description", str "Text")] }

/-- An `updateRole` request. -/
def roleRequest (id role : String) : Request :=
  bodyRequest (obj [("id", str id), ("role", str role)])

/-! ## Vocabulary of the statements -/

/-- The location on disk that a stored `image` or `video` value names, when it is a path. -/
def Env.location (env : Env) (v : JsVal) : Option String :=
  match v with
  | str p => some (env.resolve p)
  | _ => none

/-- An optional list field is absent (fails the test `field ? .. : ..`) or is text that
`JSON.parse` accepts. -/
def absentOrParses (env : Env) (field : JsVal) : Prop :=
  field.truthy = false ∨ ∃ v, env.jsonParse field = .ok v

/-- The state in which `deleteCourse` leaves the files: every video of a lecture of the
course and then the image went through `safeDeleteFile`. -/
def afterAssets (env : Env) (st : State) (course : Course) : State :=
  safeDeleteFile env (deleteVideos env st (Lecture.find st course._id)) course.image

/-- The sample state after a lecture of course `c1` was added whose body names the image
of course `c2` as its file. -/
def sharedAssetState : State :=
  (addLectures { sampleEnv with newId := "l9" }
    { idRequest "c1" with body := obj [("title", str "Extra"), ("description", str "Text"),
        ("file", str "uploads/c2.png")] }
    sampleState).1

/-- The names of the six required fields of `createCourse`. -/
def requiredNames : List String :=
  ["title", "description", "createdBy", "duration", "price", "category"]

/-- The required fields a body lacks: those whose value fails the test `!field`. -/
def missingNames (body : JsVal) : List String :=
  requiredNames.filter (fun k => !(optProp body k).truthy)

/-- The strings of an array value. -/
def stringsOf (v : JsVal) : List String :=
  match v with
  | arr items => items.filterMap (fun item => match item with | str s => some s | _ => none)
  | _ => []

/-- The field names a response carries under `requiredFields`. -/
def listedFields (r : Response) : List String :=
  stringsOf (optProp r.body "requiredFields")

/-! # Theorems -/

/-! ## Reading the request -/

theorem getProp_eq_optProp {v : JsVal} (h1 : v ≠ undefined) (h2 : v ≠ null) (k : String) :
    getProp v k = .ok (optProp v k) := by
  cases v <;> simp_all [getProp, optProp]

theorem createCourseFields_ok {body : JsVal} (h1 : body ≠ undefined) (h2 : body ≠ null) :
    createCourseFields body = .ok (optProp body "title", optProp body "description",
      optProp body "createdBy", optProp body "duration", optProp body "price",
      optProp body "category") := by
  simp only [createCourseFields, getProp_eq_optProp h1 h2]
  rfl

theorem missingNames_eq_nil_iff (body : JsVal) :
    missingNames body = [] ↔
      ((optProp body "title").truthy = true ∧ (optProp body "description").truthy = true
        ∧ (optProp body "createdBy").truthy = true ∧ (optProp body "duration").truthy = true
        ∧ (optProp body "price").truthy = true ∧ (optProp body "category").truthy = true) := by
  simp [missingNames, requiredNames, List.filter_eq_nil_iff]

/-! ## createCourse -/

/-- C1, amended: a `createCourse` request that carries a body in which at least one of the
six required fields fails the test `!field` (missing, empty, or another falsy value) is
answered with status 400, the response lists all six required field names whichever of
them are missing, and the state is left as it was, so no course is persisted. -/
theorem createCourse_missing_field (env : Env) (req : Request) (st : State)
    (hbody : req.body ≠ undefined ∧ req.body ≠ null)
    (hmiss : missingNames req.body ≠ []) :
    ∃ r, createCourse env req st = (st, .sent r) ∧ r.status = 400
      ∧ listedFields r = requiredNames := by
  refine ⟨missingFieldsResponse, ?_, rfl, by decide⟩
  rw [Ne, missingNames_eq_nil_iff] at hmiss
  simp only [createCourse, createCourseFields_ok hbody.1 hbody.2]
  rw [if_pos]
  by_contra hcond
  apply hmiss
  simpa [and_assoc] using hcond

/-- Witness of C1: the body without a title. -/
theorem createCourse_missing_field_witness :
    ∃ r, createCourse sampleEnv (bodyRequest noTitleBody) sampleState = (sampleState, .sent r)
      ∧ r.status = 400 ∧ listedFields r = requiredNames :=
  createCourse_missing_field sampleEnv (bodyRequest noTitleBody) sampleState
    ⟨by simp [bodyRequest, noTitleBody], by simp [bodyRequest, noTitleBody]⟩ (by decide)

/-- C1 as stated fails: for the body that lacks only `title`, the 400 response also lists
`description`, which the request does carry. -/
theorem createCourse_lists_present_field :
    createCourse sampleEnv (bodyRequest noTitleBody) sampleState
        = (sampleState, .sent missingFieldsResponse)
      ∧ missingFieldsResponse.status = 400
      ∧ missingNames noTitleBody = ["title"]
      ∧ "description" ∈ listedFields missingFieldsResponse
      ∧ "description" ∉ missingNames noTitleBody :=
  ⟨rfl, rfl, by decide, by decide, by decide⟩

theorem parseOrEmpty_ok {env : Env} {field : JsVal} (h : absentOrParses env field) :
    ∃ v, parseOrEmpty env field = .ok v ∧ (field.truthy = false → v = arr []) := by
  unfold parseOrEmpty
  rcases h with h | ⟨v, hv⟩
  · exact ⟨arr [], by simp [h], fun _ => rfl⟩
  · cases ht : field.truthy
    · exact ⟨arr [], by simp, fun _ => rfl⟩
    · exact ⟨v, by simp [hv], fun hf => by simp at hf⟩

theorem courses_create_fresh (st : State) (doc : Course)
    (h : ∀ c ∈ st.courses, c._id ≠ doc._id) :
    Courses.create st doc = ({ st with courses := st.courses ++ [doc] }, .ok doc) := by
  unfold Courses.create
  rw [if_neg]
  simpa using h

/-- C2: when all six required fields pass the presence test of the handler (present and
non-empty), each of `syllabus`, `whoShouldAttend`, `prerequisites` is absent or parses,
and the insert succeeds (the call does not reject and the generated `_id` is unused),
`createCourse` answers 201 with the course it appended to the collection; that course has
`duration = Number(duration)`, `price = Number(price)`, the `title`, `description`,
`createdBy` and `category` of the request, and the empty list for every absent list
field. -/
theorem createCourse_created (env : Env) (req : Request) (st : State)
    (hfields : missingNames req.body = [])
    (hsyllabus : absentOrParses env (optProp req.body "syllabus"))
    (hwho : absentOrParses env (optProp req.body "whoShouldAttend"))
    (hpre : absentOrParses env (optProp req.body "prerequisites"))
    (hdb : env.dbFault 0 = none)
    (hfresh : ∀ c ∈ st.courses, c._id ≠ env.newId) :
    ∃ course : Course,
      createCourse env req st
          = ({ st with courses := st.courses ++ [course] },
              .sent ⟨201, obj [("message", str "Course Created Successfully"),
                ("course", course.toJs)]⟩)
        ∧ course.duration = env.Number (optProp req.body "duration")
        ∧ course.price = env.Number (optProp req.body "price")
        ∧ course.title = optProp req.body "title"
        ∧ course.description = optProp req.body "description"
        ∧ course.createdBy = optProp req.body "createdBy"
        ∧ course.category = optProp req.body "category"
        ∧ ((optProp req.body "syllabus").truthy = false → course.syllabus = arr [])
        ∧ ((optProp req.body "whoShouldAttend").truthy = false → course.whoShouldAttend = arr [])
        ∧ ((optProp req.body "prerequisites").truthy = false → course.prerequisites = arr []) := by
  have hall := (missingNames_eq_nil_iff req.body).1 hfields
  have h1 : req.body ≠ undefined := by
    intro h; rw [h] at hall; simp [optProp, truthy] at hall
  have h2 : req.body ≠ null := by
    intro h; rw [h] at hall; simp [optProp, truthy] at hall
  obtain ⟨ht, hd, hc, hdu, hp, hca⟩ := hall
  obtain ⟨syl, hsyl, hsyl0⟩ := parseOrEmpty_ok hsyllabus
  obtain ⟨who, hwho, hwho0⟩ := parseOrEmpty_ok hwho
  obtain ⟨pre, hpre, hpre0⟩ := parseOrEmpty_ok hpre
  let image := JsVal.or req.file (optProp req.files "file")
  let doc : Course :=
    { _id := env.newId, title := optProp req.body "title",
      description := optProp req.body "description",
      createdBy := optProp req.body "createdBy", image := optProp image "path",
      duration := env.Number (optProp req.body "duration"),
      price := env.Number (optProp req.body "price"),
      category := optProp req.body "category", syllabus := syl, whoShouldAttend := who,
      prerequisites := pre }
  have hdoc : createCourseDoc env req (optProp req.body "title") (optProp req.body "description")
      (optProp req.body "createdBy") (optProp req.body "duration") (optProp req.body "price")
      (optProp req.body "category") image = .ok doc := by
    simp only [createCourseDoc, getProp_eq_optProp h1 h2]
    simp [bind, Except.bind, hsyl, hwho, hpre, pure, Except.pure, doc]
  refine ⟨doc, ?_, rfl, rfl, rfl, rfl, rfl, rfl, hsyl0, hwho0, hpre0⟩
  simp only [createCourse, createCourseFields_ok h1 h2]
  rw [if_neg (by simp [ht, hd, hc, hdu, hp, hca])]
  simp only [createCourseTry]
  rw [hdoc]
  simp only [awaitDb, hdb]
  rw [courses_create_fresh st doc (by simpa [doc] using hfresh)]
  rfl

/-- Witness of C2: a complete text body with a syllabus, on the sample state. -/
theorem createCourse_created_witness :
    ∃ course : Course,
      createCourse sampleEnv (bodyRequest syllabusCourseBody) sampleState
          = ({ sampleState with courses := sampleState.courses ++ [course] },
              .sent ⟨201, obj [("message", str "Course Created Successfully"),
                ("course", course.toJs)]⟩)
        ∧ course.duration = num 40 ∧ course.price = num 499
        ∧ course.title = str "Networks" ∧ course.prerequisites = arr [] := by
  obtain ⟨course, hrun, hduration, hprice, htitle, _, _, _, _, _, hpre⟩ :=
    createCourse_created sampleEnv (bodyRequest syllabusCourseBody) sampleState
      (by decide) (Or.inr ⟨arr [num 1, num 2], rfl⟩) (Or.inl rfl) (Or.inl rfl) rfl (by decide)
  exact ⟨course, hrun, hduration, hprice, htitle, hpre rfl⟩

/-! ## The asset store -/

/-- The state after `safeDeleteFile`: the same, or the same with the file the path
resolves to removed from the files. -/
theorem safeDeleteFile_cases (env : Env) (st : State) (v : JsVal) :
    safeDeleteFile env st v = st
      ∨ ∃ p, v = str p ∧ env.unlinkFault p = none
          ∧ safeDeleteFile env st v
            = { st with files := st.files.filter (fun q => q != env.resolve p) } := by
  unfold safeDeleteFile
  split
  · cases v with
    | str p =>
      cases hf : env.unlinkFault p with
      | none => exact Or.inr ⟨p, rfl, hf, by simp [unlinkAsync, hf]⟩
      | some msg => exact Or.inl (by simp [unlinkAsync, hf])
    | _ => exact Or.inl rfl
  · exact Or.inl rfl

@[simp]
theorem safeDeleteFile_courses (env : Env) (st : State) (v : JsVal) :
    (safeDeleteFile env st v).courses = st.courses := by
  rcases safeDeleteFile_cases env st v with h | ⟨p, _, _, h⟩ <;> rw [h]

@[simp]
theorem safeDeleteFile_lectures (env : Env) (st : State) (v : JsVal) :
    (safeDeleteFile env st v).lectures = st.lectures := by
  rcases safeDeleteFile_cases env st v with h | ⟨p, _, _, h⟩ <;> rw [h]

@[simp]
theorem safeDeleteFile_users (env : Env) (st : State) (v : JsVal) :
    (safeDeleteFile env st v).users = st.users := by
  rcases safeDeleteFile_cases env st v with h | ⟨p, _, _, h⟩ <;> rw [h]

@[simp]
theorem safeDeleteFile_workshops (env : Env) (st : State) (v : JsVal) :
    (safeDeleteFile env st v).workshops = st.workshops := by
  rcases safeDeleteFile_cases env st v with h | ⟨p, _, _, h⟩ <;> rw [h]

/-- The files after `safeDeleteFile`: the same, or the same without the file the path
resolves to. -/
theorem safeDeleteFile_files (env : Env) (st : State) (v : JsVal) :
    (safeDeleteFile env st v).files = st.files
      ∨ ∃ p, v = str p ∧ env.unlinkFault p = none
          ∧ (safeDeleteFile env st v).files
            = st.files.filter (fun q => q != env.resolve p) := by
  rcases safeDeleteFile_cases env st v with h | ⟨p, hv, hf, h⟩
  · exact Or.inl (by rw [h])
  · exact Or.inr ⟨p, hv, hf, by rw [h]⟩

theorem mem_files_safeDeleteFile {env : Env} {st : State} {v : JsVal} {q : String}
    (h : q ∈ (safeDeleteFile env st v).files) : q ∈ st.files := by
  rcases safeDeleteFile_files env st v with h' | ⟨p, _, _, h'⟩
  · rwa [h'] at h
  · rw [h'] at h
    exact (List.mem_filter.1 h).1

theorem mem_files_safeDeleteFile_of_ne {env : Env} {st : State} {v : JsVal} {q : String}
    (hne : env.location v ≠ some q) (h : q ∈ st.files) :
    q ∈ (safeDeleteFile env st v).files := by
  rcases safeDeleteFile_files env st v with h' | ⟨p, hv, _, h'⟩
  · rwa [h']
  · rw [h']
    refine List.mem_filter.2 ⟨h, ?_⟩
    have : q ≠ env.resolve p := fun hqp => hne (by rw [hv, hqp]; rfl)
    simpa using this

theorem existsAsync_eq_false_iff (env : Env) (st : State) (p : String) :
    existsAsync env st (str p) = false ↔ env.resolve p ∉ st.files := by
  simp [existsAsync]

theorem not_mem_files_safeDeleteFile {env : Env} (st : State) {p : String}
    (hok : env.unlinkFault p = none) :
    env.resolve p ∉ (safeDeleteFile env st (str p)).files := by
  unfold safeDeleteFile
  by_cases hex : existsAsync env st (str p) = true
  · simp [hex, unlinkAsync, hok]
  · simp only [hex]
    simpa [existsAsync] using hex

@[simp]
theorem deleteVideos_courses (env : Env) (st : State) (ls : List Lecture) :
    (deleteVideos env st ls).courses = st.courses := by
  induction ls generalizing st with
  | nil => rfl
  | cons l ls ih => simp [deleteVideos, List.foldl_cons] at ih ⊢; rw [ih]; simp

@[simp]
theorem deleteVideos_lectures (env : Env) (st : State) (ls : List Lecture) :
    (deleteVideos env st ls).lectures = st.lectures := by
  induction ls generalizing st with
  | nil => rfl
  | cons l ls ih => simp [deleteVideos, List.foldl_cons] at ih ⊢; rw [ih]; simp

@[simp]
theorem deleteVideos_users (env : Env) (st : State) (ls : List Lecture) :
    (deleteVideos env st ls).users = st.users := by
  induction ls generalizing st with
  | nil => rfl
  | cons l ls ih => simp [deleteVideos, List.foldl_cons] at ih ⊢; rw [ih]; simp

@[simp]
theorem deleteVideos_workshops (env : Env) (st : State) (ls : List Lecture) :
    (deleteVideos env st ls).workshops = st.workshops := by
  induction ls generalizing st with
  | nil => rfl
  | cons l ls ih => simp [deleteVideos, List.foldl_cons] at ih ⊢; rw [ih]; simp

theorem mem_files_deleteVideos {env : Env} {st : State} {ls : List Lecture} {q : String}
    (h : q ∈ (deleteVideos env st ls).files) : q ∈ st.files := by
  induction ls generalizing st with
  | nil => exact h
  | cons l ls ih => exact mem_files_safeDeleteFile (ih h)

theorem mem_files_deleteVideos_of_ne {env : Env} {st : State} {ls : List Lecture} {q : String}
    (hne : ∀ l ∈ ls, env.location l.video ≠ some q) (h : q ∈ st.files) :
    q ∈ (deleteVideos env st ls).files := by
  induction ls generalizing st with
  | nil => exact h
  | cons l ls ih =>
    exact ih (fun l' hl' => hne l' (List.mem_cons_of_mem _ hl'))
      (mem_files_safeDeleteFile_of_ne (hne l (List.mem_cons_self _ _)) h)

theorem not_mem_files_deleteVideos {env : Env} (st : State) {ls : List Lecture} {l : Lecture}
    {p : String} (hl : l ∈ ls) (hv : l.video = str p) (hok : env.unlinkFault p = none) :
    env.resolve p ∉ (deleteVideos env st ls).files := by
  induction ls generalizing st with
  | nil => cases hl
  | cons l' ls ih =>
    rcases List.mem_cons.1 hl with rfl | hl
    · intro hmem
      have hfile : env.resolve p ∈ (safeDeleteFile env st l.video).files :=
        @mem_files_deleteVideos env (safeDeleteFile env st l.video) ls (env.resolve p) hmem
      rw [hv] at hfile
      exact not_mem_files_safeDeleteFile st hok hfile
    · exact ih _ hl

/-! ## Looking documents up -/

theorem find?_id_of_mem {α : Type} (f : α → String) {l : List α} {c : α}
    (hn : (l.map f).Nodup) (hc : c ∈ l) : l.find? (fun x => f x == f c) = some c := by
  induction l with
  | nil => cases hc
  | cons y ys ih =>
    rw [List.map_cons, List.nodup_cons] at hn
    rcases List.mem_cons.1 hc with rfl | hc
    · simp
    · have hne : f y ≠ f c := fun h => hn.1 (h ▸ List.mem_map_of_mem f hc)
      rw [List.find?_cons_of_neg _ (by simpa using hne)]
      exact ih hn.2 hc

theorem find?_id_some {α : Type} (f : α → String) {l : List α} {s : String} {c : α}
    (h : l.find? (fun x => f x == s) = some c) : f c = s ∧ c ∈ l := by
  have h1 := List.find?_some h
  exact ⟨by simpa using h1, List.mem_of_find?_eq_some h⟩

theorem find?_id_none {α : Type} (f : α → String) {l : List α} {s : String}
    (h : ∀ x ∈ l, f x ≠ s) : l.find? (fun x => f x == s) = none := by
  rw [List.find?_eq_none]
  intro x hx
  simpa using h x hx

theorem courses_findById_some {st : State} {id : JsVal} {c : Course}
    (h : Courses.findById st id = some c) : id = str c._id ∧ c ∈ st.courses := by
  cases id <;> simp only [Courses.findById] at h <;> try cases h
  obtain ⟨h1, h2⟩ := find?_id_some Course._id h
  exact ⟨by rw [h1], h2⟩

theorem lecture_findById_some {st : State} {id : JsVal} {l : Lecture}
    (h : Lecture.findById st id = some l) : id = str l._id ∧ l ∈ st.lectures := by
  cases id <;> simp only [Lecture.findById] at h <;> try cases h
  obtain ⟨h1, h2⟩ := find?_id_some Lecture._id h
  exact ⟨by rw [h1], h2⟩

theorem user_findById_some {st : State} {id : JsVal} {u : User}
    (h : User.findById st id = some u) : id = str u._id ∧ u ∈ st.users := by
  cases id <;> simp only [User.findById] at h <;> try cases h
  obtain ⟨h1, h2⟩ := find?_id_some User._id h
  exact ⟨by rw [h1], h2⟩

theorem eraseP_id_ne {α : Type} (f : α → String) {l : List α} {a : String}
    (hn : (l.map f).Nodup) : ∀ x ∈ l.eraseP (fun y => f y == a), f x ≠ a := by
  induction l with
  | nil => intro x hx; cases hx
  | cons y ys ih =>
    rw [List.map_cons, List.nodup_cons] at hn
    intro x hx
    by_cases hy : f y = a
    · rw [List.eraseP_cons_of_pos (by simpa using hy)] at hx
      intro hxa
      exact hn.1 (by rw [hy, ← hxa]; exact List.mem_map_of_mem f hx)
    · rw [List.eraseP_cons_of_neg (by simpa using hy)] at hx
      rcases List.mem_cons.1 hx with rfl | hx
      · exact hy
      · exact ih hn.2 x hx

@[simp]
theorem tryCatch_fst (body : State × Except JsVal Response)
    (handler : JsVal → Except JsVal Response) : (tryCatch body handler).1 = body.1 := by
  unfold tryCatch
  repeat' split
  all_goals rfl

/-! ## deleteCourse -/

/-- The result of `deleteCourse` when the course is found and no database call rejects. -/
theorem deleteCourse_of_found {env : Env} {req : Request} {st : State} {c : Course}
    (hfind : Courses.findById st req.paramsId = some c) (hdb : ∀ k, env.dbFault k = none) :
    deleteCourse env req st
      = (User.pullSubscription
          (Courses.deleteOne (Lecture.deleteMany (afterAssets env st c) req.paramsId) c)
          req.paramsId,
        .sent ⟨200, obj [("message", str "Course Deleted Successfully")]⟩) := by
  simp [deleteCourse, deleteCourseTry, awaitDb, hdb, hfind, tryCatch, afterAssets]

/-- C3: when the state holds a course `c` (with `_id`s unique in the collection, as the
database keeps them), the request names it, and no database call and no `unlink` fails,
`deleteCourse` answers 200 with the success message and leaves a state in which no
lecture references `c`, no course has the `_id` of `c`, no video of a lecture that
referenced `c` and not the image of `c` is present on disk, and no user is subscribed
to `c`. -/
theorem deleteCourse_cascade (env : Env) (req : Request) (st : State) (c : Course)
    (hc : c ∈ st.courses) (hreq : req.paramsId = str c._id)
    (hunique : (st.courses.map Course._id).Nodup)
    (hdb : ∀ k, env.dbFault k = none) (hfs : ∀ p, env.unlinkFault p = none) :
    ∃ st', deleteCourse env req st
        = (st', .sent ⟨200, obj [("message", str "Course Deleted Successfully")]⟩)
      ∧ (∀ l ∈ st'.lectures, l.course ≠ c._id)
      ∧ (∀ x ∈ st'.courses, x._id ≠ c._id)
      ∧ (∀ l ∈ st.lectures, l.course = c._id → existsAsync env st' l.video = false)
      ∧ existsAsync env st' c.image = false
      ∧ (∀ u ∈ st'.users, c._id ∉ u.subscription) := by
  have hfind : Courses.findById st req.paramsId = some c := by
    rw [hreq]
    exact find?_id_of_mem Course._id hunique hc
  refine ⟨_, deleteCourse_of_found hfind hdb, ?_, ?_, ?_, ?_, ?_⟩
  · intro l hl
    simp only [hreq, User.pullSubscription, Courses.deleteOne, Lecture.deleteMany] at hl
    simpa using (List.mem_filter.1 hl).2
  · intro x hx
    simp only [hreq, User.pullSubscription, Courses.deleteOne, Lecture.deleteMany,
      afterAssets, safeDeleteFile_courses, deleteVideos_courses] at hx
    exact eraseP_id_ne Course._id hunique x hx
  · intro l hl hlc
    simp only [hreq, User.pullSubscription, Courses.deleteOne, Lecture.deleteMany]
    cases hv : l.video with
    | str p =>
      rw [existsAsync_eq_false_iff]
      intro hmem
      have hmem' := mem_files_safeDeleteFile hmem
      have hl' : l ∈ Lecture.find st c._id := by
        simp [Lecture.find, hl, hlc]
      exact not_mem_files_deleteVideos st hl' hv (hfs p) hmem'
    | _ => rfl
  · simp only [hreq, User.pullSubscription, Courses.deleteOne, Lecture.deleteMany]
    cases hv : c.image with
    | str p =>
      rw [existsAsync_eq_false_iff]
      simp only [afterAssets, hv]
      exact not_mem_files_safeDeleteFile _ (hfs p)
    | _ => rfl
  · intro u hu
    simp only [hreq, User.pullSubscription, List.mem_map] at hu
    obtain ⟨u0, _, rfl⟩ := hu
    simp [User.pull]

/-- Witness of C3: deleting course `c1` of the sample state. -/
theorem deleteCourse_cascade_witness :
    ∃ st', deleteCourse sampleEnv (idRequest "c1") sampleState
        = (st', .sent ⟨200, obj [("message", str "Course Deleted Successfully")]⟩)
      ∧ (∀ l ∈ st'.lectures, l.course ≠ "c1")
      ∧ (∀ x ∈ st'.courses, x._id ≠ "c1")
      ∧ (∀ l ∈ sampleState.lectures, l.course = "c1" →
          existsAsync sampleEnv st' l.video = false)
      ∧ existsAsync sampleEnv st' (str "uploads/c1.png") = false
      ∧ (∀ u ∈ st'.users, "c1" ∉ u.subscription) :=
  deleteCourse_cascade sampleEnv (idRequest "c1") sampleState (sampleCourse "c1" "uploads/c1.png")
    (by simp [sampleState]) rfl (by decide) (fun _ => rfl) (fun _ => rfl)

/-- The state `deleteCourse` leaves for a course it finds, whatever rejects: the cascade
stops after one of its steps. -/
theorem deleteCourse_state_cases {env : Env} {req : Request} {st : State} {c : Course}
    (hfind : Courses.findById st req.paramsId = some c) :
    (deleteCourse env req st).1 = st
      ∨ (deleteCourse env req st).1 = afterAssets env st c
      ∨ (deleteCourse env req st).1 = Lecture.deleteMany (afterAssets env st c) req.paramsId
      ∨ (deleteCourse env req st).1
          = Courses.deleteOne (Lecture.deleteMany (afterAssets env st c) req.paramsId) c
      ∨ (deleteCourse env req st).1
          = User.pullSubscription
              (Courses.deleteOne (Lecture.deleteMany (afterAssets env st c) req.paramsId) c)
              req.paramsId := by
  simp only [deleteCourse, tryCatch_fst, deleteCourseTry, awaitDb, hfind, afterAssets]
  cases env.dbFault 0 <;> cases env.dbFault 1 <;> cases env.dbFault 2 <;>
    cases env.dbFault 3 <;> cases env.dbFault 4 <;> simp

theorem filter_eraseP_id {α : Type} (f : α → String) (l : List α) (a : String) :
    (l.eraseP (fun y => f y == a)).filter (fun y => f y != a) = l.filter (fun y => f y != a) := by
  induction l with
  | nil => rfl
  | cons y ys ih =>
    by_cases hy : f y = a
    · rw [List.eraseP_cons_of_pos (by simpa using hy)]
      rw [List.filter_cons_of_neg (by simpa using hy)]
    · rw [List.eraseP_cons_of_neg (by simpa using hy)]
      rw [List.filter_cons_of_pos (by simpa using hy), List.filter_cons_of_pos (by simpa using hy), ih]

theorem User.pull_pull (s : String) (u : User) : User.pull s (User.pull s u) = User.pull s u := by
  simp [User.pull, List.filter_filter]

theorem mem_files_afterAssets {env : Env} {st : State} {c : Course} {q : String}
    (himage : env.location c.image ≠ some q)
    (hvideo : ∀ l ∈ st.lectures, l.course = c._id → env.location l.video ≠ some q) :
    q ∈ (afterAssets env st c).files ↔ q ∈ st.files := by
  constructor
  · intro h
    exact mem_files_deleteVideos (mem_files_safeDeleteFile h)
  · intro h
    refine mem_files_safeDeleteFile_of_ne himage (mem_files_deleteVideos_of_ne ?_ h)
    intro l hl
    have hl' := List.mem_filter.1 hl
    exact hvideo l hl'.1 (by simpa using hl'.2)

/-- C4, amended: for a course `c` that `deleteCourse` finds, and whatever the database and
the file system do, the call leaves as they were every course with another `_id`, every
lecture whose course reference is not `c`, every user up to the removal of the `_id` of
`c` from the subscriptions, and the presence of every file on disk that is neither the
file the image path of `c` resolves to nor the file the video path of a lecture of `c`
resolves to. -/
theorem deleteCourse_frame (env : Env) (req : Request) (st : State) (c : Course)
    (hfind : Courses.findById st req.paramsId = some c) :
    ((deleteCourse env req st).1.courses.filter (fun x => x._id != c._id)
        = st.courses.filter (fun x => x._id != c._id))
      ∧ ((deleteCourse env req st).1.lectures.filter (fun l => l.course != c._id)
        = st.lectures.filter (fun l => l.course != c._id))
      ∧ ((deleteCourse env req st).1.users.map (User.pull c._id)
        = st.users.map (User.pull c._id))
      ∧ (∀ q : String, env.location c.image ≠ some q →
          (∀ l ∈ st.lectures, l.course = c._id → env.location l.video ≠ some q) →
          (q ∈ (deleteCourse env req st).1.files ↔ q ∈ st.files)) := by
  have hreq := (courses_findById_some hfind).1
  have hpull : ∀ us : List User,
      (us.map (User.pull c._id)).map (User.pull c._id) = us.map (User.pull c._id) := by
    intro us
    simp [List.map_map, Function.comp_def, User.pull_pull]
  rcases @deleteCourse_state_cases env req st c hfind with h | h | h | h | h <;> rw [h] <;>
    simp only [hreq, User.pullSubscription, Courses.deleteOne, Lecture.deleteMany,
      afterAssets, safeDeleteFile_courses, deleteVideos_courses, safeDeleteFile_lectures,
      deleteVideos_lectures, safeDeleteFile_users, deleteVideos_users, filter_eraseP_id Course._id,
      List.filter_filter, Bool.and_self, hpull, true_and]
  all_goals first
    | exact fun q _ _ => trivial
    | exact fun q himage hvideo => mem_files_afterAssets himage hvideo

/-- Witness of C4: deleting course `c1` of the sample state. -/
theorem deleteCourse_frame_witness :
    ((deleteCourse sampleEnv (idRequest "c1") sampleState).1.courses.filter
          (fun x => x._id != "c1")
        = sampleState.courses.filter (fun x => x._id != "c1"))
      ∧ ((deleteCourse sampleEnv (idRequest "c1") sampleState).1.lectures.filter
          (fun l => l.course != "c1")
        = sampleState.lectures.filter (fun l => l.course != "c1"))
      ∧ ((deleteCourse sampleEnv (idRequest "c1") sampleState).1.users.map (User.pull "c1")
        = sampleState.users.map (User.pull "c1"))
      ∧ (∀ q : String, sampleEnv.location (str "uploads/c1.png") ≠ some q →
          (∀ l ∈ sampleState.lectures, l.course = "c1" → sampleEnv.location l.video ≠ some q) →
          (q ∈ (deleteCourse sampleEnv (idRequest "c1") sampleState).1.files
            ↔ q ∈ sampleState.files)) :=
  deleteCourse_frame sampleEnv (idRequest "c1") sampleState (sampleCourse "c1" "uploads/c1.png")
    rfl

/-- The same through another path: the lecture of `c1` names the image of `c2` as
`./uploads/c2.png`, no document of `c1` holds the path `uploads/c2.png`, and deleting `c1`
removes the file `uploads/c2.png` all the same. -/
theorem deleteCourse_removes_aliased_asset :
    (aliasedAssetState.lectures.filter (fun l => l.course == "c1")).map
        (fun l => sampleEnv.location l.video)
        = [some "uploads/l1.mp4", some "uploads/l2.mp4", some "uploads/c2.png"]
      ∧ "uploads/c2.png" ∈ aliasedAssetState.files
      ∧ "uploads/c2.png" ∉ (deleteCourse sampleEnv (idRequest "c1") aliasedAssetState).1.files :=
  ⟨by decide, by decide, by decide⟩

/-- C4 as stated fails: in a state the API itself produces (a lecture of `c1` whose video is
the path of the image of `c2`), deleting `c1` removes the image file of the other course
`c2`. -/
theorem deleteCourse_removes_shared_asset :
    (sharedAssetState.courses.filter (fun x => x._id != "c1")).map
        (fun x => (x._id, existsAsync sampleEnv sharedAssetState x.image)) = [("c2", true)]
      ∧ (sharedAssetState.courses.filter (fun x => x._id != "c1")).map Course.image
        = [str "uploads/c2.png"]
      ∧ "uploads/c2.png" ∈ sharedAssetState.files
      ∧ "uploads/c2.png" ∉ (deleteCourse sampleEnv (idRequest "c1") sharedAssetState).1.files :=
  ⟨by decide, rfl, by decide, by decide⟩

/-! ## Deleting what is not there -/

theorem courses_findById_none {st : State} {id : JsVal}
    (h : ∀ c ∈ st.courses, id ≠ str c._id) : Courses.findById st id = none := by
  cases id <;> simp only [Courses.findById]
  exact find?_id_none Course._id (fun c hc hid => h c hc (by rw [hid]))

theorem lecture_findById_none {st : State} {id : JsVal}
    (h : ∀ l ∈ st.lectures, id ≠ str l._id) : Lecture.findById st id = none := by
  cases id <;> simp only [Lecture.findById]
  exact find?_id_none Lecture._id (fun l hl hid => h l hl (by rw [hid]))

theorem user_findById_none {st : State} {id : JsVal}
    (h : ∀ u ∈ st.users, id ≠ str u._id) : User.findById st id = none := by
  cases id <;> simp only [User.findById]
  exact find?_id_none User._id (fun u hu hid => h u hu (by rw [hid]))

theorem deleteCourse_of_missing {env : Env} {req : Request} {st : State}
    (hlookup : env.dbFault 0 = none) (hnone : Courses.findById st req.paramsId = none) :
    deleteCourse env req st = (st, .sent ⟨404, obj [("message", str "Course not found")]⟩) := by
  simp [deleteCourse, deleteCourseTry, awaitDb, hlookup, hnone, tryCatch]

/-- C5: when the lookup itself completes, `deleteCourse` on an id that names no course and
`deleteLecture` on an id that names no lecture answer 404 and return the state they were
given, files included; in particular, after a `deleteCourse` that found its course (with
unique `_id`s) and met no database failure, a second `deleteCourse` with the same request
answers 404 and changes nothing. -/
theorem delete_missing_noop (env : Env) (req : Request) (st : State)
    (hlookup : env.dbFault 0 = none) :
    ((∀ c ∈ st.courses, req.paramsId ≠ str c._id) →
        deleteCourse env req st
          = (st, .sent ⟨404, obj [("message", str "Course not found")]⟩))
      ∧ ((∀ l ∈ st.lectures, req.paramsId ≠ str l._id) →
        deleteLecture env req st
          = (st, .sent ⟨404, obj [("message", str "Lecture not found")]⟩))
      ∧ (∀ (first : Env) (c : Course), c ∈ st.courses → req.paramsId = str c._id →
          (st.courses.map Course._id).Nodup → (∀ k, first.dbFault k = none) →
          deleteCourse env req (deleteCourse first req st).1
            = ((deleteCourse first req st).1,
                .sent ⟨404, obj [("message", str "Course not found")]⟩)) := by
  refine ⟨?_, ?_, ?_⟩
  · intro h
    exact deleteCourse_of_missing hlookup (courses_findById_none h)
  · intro h
    simp [deleteLecture, deleteLectureTry, awaitDb, hlookup, lecture_findById_none h, tryCatch]
  · intro first c hc hreq hunique hdb
    have hfind : Courses.findById st req.paramsId = some c := by
      rw [hreq]
      exact find?_id_of_mem Course._id hunique hc
    apply deleteCourse_of_missing hlookup
    apply courses_findById_none
    intro x hx hid
    rw [deleteCourse_of_found hfind hdb] at hx
    simp only [hreq, User.pullSubscription, Courses.deleteOne, Lecture.deleteMany,
      afterAssets, safeDeleteFile_courses, deleteVideos_courses] at hx
    have hne := eraseP_id_ne Course._id hunique x hx
    rw [hreq] at hid
    injection hid with hid
    exact hne hid.symm

/-- Witness of C5: an unknown course id, an unknown lecture id, and course `c1` deleted
twice, all on the sample state. -/
theorem delete_missing_noop_witness :
    deleteCourse sampleEnv (idRequest "c9") sampleState
        = (sampleState, .sent ⟨404, obj [("message", str "Course not found")]⟩)
      ∧ deleteLecture sampleEnv (idRequest "c9") sampleState
        = (sampleState, .sent ⟨404, obj [("message", str "Lecture not found")]⟩)
      ∧ deleteCourse sampleEnv (idRequest "c1")
          (deleteCourse sampleEnv (idRequest "c1") sampleState).1
        = ((deleteCourse sampleEnv (idRequest "c1") sampleState).1,
            .sent ⟨404, obj [("message", str "Course not found")]⟩) :=
  ⟨(delete_missing_noop sampleEnv (idRequest "c9") sampleState rfl).1
      (by simp [sampleState, idRequest, sampleCourse]),
    (delete_missing_noop sampleEnv (idRequest "c9") sampleState rfl).2.1
      (by simp [sampleState, idRequest, sampleLecture]),
    (delete_missing_noop sampleEnv (idRequest "c1") sampleState rfl).2.2 sampleEnv
      (sampleCourse "c1" "uploads/c1.png") (by simp [sampleState]) rfl (by decide)
      (fun _ => rfl)⟩

/-! ## addLectures -/

/-- C6: an `addLectures` request whose course id is non-empty and names no course leaves
the state as it was, whatever its body, its files and the database do, so no lecture is
created; when the lookup completes the answer is 404. -/
theorem addLectures_unknown_course (env : Env) (req : Request) (st : State)
    (hid : req.paramsId.truthy = true)
    (hnone : ∀ c ∈ st.courses, req.paramsId ≠ str c._id) :
    (addLectures env req st).1 = st
      ∧ (env.dbFault 0 = none →
          addLectures env req st
            = (st, .sent ⟨404, obj [("message", str "No Course with this id")]⟩)) := by
  have hfind := courses_findById_none hnone
  constructor
  · simp only [addLectures, tryCatch_fst, addLecturesTry, hid, awaitDb, hfind]
    cases env.dbFault 0 <;> simp
  · intro hlookup
    simp [addLectures, addLecturesTry, hid, awaitDb, hlookup, hfind, tryCatch]

/-- Witness of C6: a complete lecture request for the unknown course `c9`. -/
theorem addLectures_unknown_course_witness :
    (addLectures sampleEnv (lectureRequest "c9") sampleState).1 = sampleState
      ∧ (sampleEnv.dbFault 0 = none →
          addLectures sampleEnv (lectureRequest "c9") sampleState
            = (sampleState, .sent ⟨404, obj [("message", str "No Course with this id")]⟩)) :=
  addLectures_unknown_course sampleEnv (lectureRequest "c9") sampleState rfl
    (by simp [sampleState, lectureRequest, idRequest, sampleCourse])

/-! ## updateRole -/

theorem User.replace_of_find {u0 u1 : User} {l : List User} (hid : u1._id = u0._id)
    (h : l.find? (fun x => x._id == u0._id) = some u0) :
    ∃ pre post, l = pre ++ u0 :: post ∧ User.replace u1 l = pre ++ u1 :: post := by
  induction l with
  | nil => cases h
  | cons y ys ih =>
    by_cases hy : y._id = u0._id
    · rw [List.find?_cons_of_pos _ (by simpa using hy)] at h
      cases h
      exact ⟨[], ys, rfl, by simp [User.replace, hid]⟩
    · rw [List.find?_cons_of_neg _ (by simpa using hy)] at h
      obtain ⟨pre, post, h1, h2⟩ := ih h
      exact ⟨y :: pre, post, by rw [h1]; rfl, by simp [User.replace, hid, hy, h2]⟩

/-- C7: with a body and a database that does not fail, `updateRole` on a user `u` of the
collection (named by `body.id`, `_id`s unique) stores in the place of `u` the same document
with `role` and `mainrole` both set to `body.role`, leaves every other user where it was,
and answers 200 with the updated user; when `body.id` names no user it answers 404 and
returns the state unchanged. -/
theorem updateRole_sets_role_and_mainrole (env : Env) (req : Request) (st : State)
    (hbody : req.body ≠ undefined ∧ req.body ≠ null) (hdb : ∀ k, env.dbFault k = none) :
    (∀ u ∈ st.users, optProp req.body "id" = str u._id → (st.users.map User._id).Nodup →
        ∃ pre post, st.users = pre ++ u :: post
          ∧ updateRole env req st
            = ({ st with users := pre ++
                  { u with role := optProp req.body "role",
                           mainrole := optProp req.body "role" } :: post },
                .sent ⟨200, obj [("message", str "Role Updated"),
                  ("user", User.toJs { u with role := optProp req.body "role",
                                              mainrole := optProp req.body "role" })]⟩))
      ∧ ((∀ u ∈ st.users, optProp req.body "id" ≠ str u._id) →
          updateRole env req st = (st, .sent ⟨404, obj [("message", str "User not found")]⟩)) := by
  constructor
  · intro u hu hid hunique
    have hfind : User.findById st (optProp req.body "id") = some u := by
      rw [hid]
      exact find?_id_of_mem User._id hunique hu
    have hfind' : st.users.find? (fun x => x._id == u._id) = some u :=
      find?_id_of_mem User._id hunique hu
    obtain ⟨pre, post, h1, h2⟩ := @User.replace_of_find u
      { u with role := optProp req.body "role", mainrole := optProp req.body "role" }
      st.users rfl hfind'
    refine ⟨pre, post, h1, ?_⟩
    simp [updateRole, updateRoleTry, getProp_eq_optProp hbody.1 hbody.2, awaitDb, hdb, hfind,
      tryCatch, User.save, h2]
  · intro hnone
    simp [updateRole, updateRoleTry, getProp_eq_optProp hbody.1 hbody.2, awaitDb, hdb,
      user_findById_none hnone, tryCatch]

/-- Witness of C7: user `u2` of the sample state is made an admin, and `u9` is unknown. -/
theorem updateRole_sets_role_and_mainrole_witness :
    (∃ pre post, sampleState.users = pre ++ sampleUser "u2" ["c2"] :: post
        ∧ updateRole sampleEnv (roleRequest "u2" "admin") sampleState
          = ({ sampleState with users := pre ++
                { sampleUser "u2" ["c2"] with role := str "admin", mainrole := str "admin" }
                  :: post },
              .sent ⟨200, obj [("message", str "Role Updated"),
                ("user", User.toJs { sampleUser "u2" ["c2"] with
                  role := str "admin", mainrole := str "admin" })]⟩))
      ∧ updateRole sampleEnv (roleRequest "u9" "admin") sampleState
        = (sampleState, .sent ⟨404, obj [("message", str "User not found")]⟩) :=
  ⟨(updateRole_sets_role_and_mainrole sampleEnv (roleRequest "u2" "admin") sampleState
      ⟨by simp [roleRequest, bodyRequest], by simp [roleRequest, bodyRequest]⟩ (fun _ => rfl)).1
      (sampleUser "u2" ["c2"]) (by simp [sampleState]) rfl (by decide),
    (updateRole_sets_role_and_mainrole sampleEnv (roleRequest "u9" "admin") sampleState
      ⟨by simp [roleRequest, bodyRequest], by simp [roleRequest, bodyRequest]⟩ (fun _ => rfl)).2
      (by simp [sampleState, roleRequest, bodyRequest, sampleUser, optProp, lookup])⟩

/-! ## deleteLecture -/

theorem eraseP_of_find {α : Type} (f : α → String) {l : List α} {a : α}
    (h : l.find? (fun x => f x == f a) = some a) :
    ∃ pre post, l = pre ++ a :: post ∧ l.eraseP (fun x => f x == f a) = pre ++ post := by
  induction l with
  | nil => cases h
  | cons y ys ih =>
    by_cases hy : f y = f a
    · rw [List.find?_cons_of_pos _ (by simpa using hy)] at h
      cases h
      exact ⟨[], ys, rfl, by simp⟩
    · rw [List.find?_cons_of_neg _ (by simpa using hy)] at h
      obtain ⟨pre, post, h1, h2⟩ := ih h
      exact ⟨y :: pre, post, by rw [h1]; rfl, by
        rw [List.eraseP_cons_of_neg (by simpa using hy), h2]; rfl⟩

/-- C8: for a lecture `l` of the collection (named by the route parameter, `_id`s unique),
a database that does not fail, and any behaviour of the file system (every `unlink` may
reject, the video may be unset or missing), `deleteLecture` answers 200 with the success
message, removes `l` from the lectures and keeps the other lectures in place, and leaves
courses and users as they were. -/
theorem deleteLecture_absorbs_asset_failure (env : Env) (req : Request) (st : State)
    (l : Lecture) (hl : l ∈ st.lectures) (hreq : req.paramsId = str l._id)
    (hunique : (st.lectures.map Lecture._id).Nodup) (hdb : ∀ k, env.dbFault k = none) :
    ∃ st' pre post,
      deleteLecture env req st
          = (st', .sent ⟨200, obj [("message", str "Lecture Deleted Successfully")]⟩)
        ∧ st.lectures = pre ++ l :: post ∧ st'.lectures = pre ++ post
        ∧ (∀ x ∈ st'.lectures, x._id ≠ l._id)
        ∧ st'.courses = st.courses ∧ st'.users = st.users := by
  have hfind' : st.lectures.find? (fun x => x._id == l._id) = some l :=
    find?_id_of_mem Lecture._id hunique hl
  have hfind : Lecture.findById st req.paramsId = some l := by
    rw [hreq]
    exact hfind'
  obtain ⟨pre, post, h1, h2⟩ := eraseP_of_find Lecture._id hfind'
  refine ⟨Lecture.deleteOne (safeDeleteFile env st l.video) l, pre, post, ?_, h1, ?_, ?_, ?_, ?_⟩
  · simp [deleteLecture, deleteLectureTry, awaitDb, hdb, hfind, tryCatch]
  · simpa [Lecture.deleteOne] using h2
  · intro x hx
    simp only [Lecture.deleteOne, safeDeleteFile_lectures] at hx
    exact eraseP_id_ne Lecture._id hunique x hx
  · simp [Lecture.deleteOne]
  · simp [Lecture.deleteOne]

/-- Witness of C8: lecture `l1` of the sample state, with every `unlink` rejected. -/
theorem deleteLecture_absorbs_asset_failure_witness :
    ∃ st' pre post,
      deleteLecture lockedEnv (idRequest "l1") sampleState
          = (st', .sent ⟨200, obj [("message", str "Lecture Deleted Successfully")]⟩)
        ∧ sampleState.lectures = pre ++ sampleLecture "l1" "c1" "uploads/l1.mp4" :: post
        ∧ st'.lectures = pre ++ post
        ∧ (∀ x ∈ st'.lectures, x._id ≠ "l1")
        ∧ st'.courses = sampleState.courses ∧ st'.users = sampleState.users :=
  deleteLecture_absorbs_asset_failure lockedEnv (idRequest "l1") sampleState
    (sampleLecture "l1" "c1" "uploads/l1.mp4") (by simp [sampleState]) rfl (by decide)
    (fun _ => rfl)

/-! ## The boundary of the handlers -/

/-- The condition on the body in the boundary theorem of this file is used: the destructuring of `req.body`
in `createCourse` stands before the `try`, so on a request object whose `body` is
`undefined`, which the parsers of `index.js` never hand over, the function throws. -/
theorem createCourse_undefined_body :
    createCourse sampleEnv (bodyRequest undefined) sampleState
      = (sampleState, .escaped typeError) :=
  rfl

/-- The condition on the shape of a `ValidationError` in the boundary theorem is used: on a
rejection of that name without `errors`, which Mongoose does not produce, the `catch` block
of `addLectures` throws in `Object.values`. -/
theorem addLectures_unshaped_rejection :
    addLectures { sampleEnv with dbFault := fun _ => some (obj [("name", str "ValidationError")]) }
        (lectureRequest "c1") sampleState
      = (sampleState, .escaped typeError) :=
  rfl

/-! ## Referential consistency -/

theorem courses_create_fst_cases (st : State) (doc : Course) :
    (Courses.create st doc).1 = st
      ∨ (Courses.create st doc).1 = { st with courses := st.courses ++ [doc] } := by
  unfold Courses.create
  split
  · exact Or.inl rfl
  · exact Or.inr rfl

theorem lecture_create_fst_cases (st : State) (doc : Lecture) :
    (Lecture.create st doc).1 = st
      ∨ (Lecture.create st doc).1 = { st with lectures := st.lectures ++ [doc] } := by
  unfold Lecture.create
  split
  · exact Or.inl rfl
  · exact Or.inr rfl

theorem createCourse_fst_cases (env : Env) (req : Request) (st : State) :
    (createCourse env req st).1 = st
      ∨ ∃ doc, (createCourse env req st).1 = { st with courses := st.courses ++ [doc] } := by
  unfold createCourse
  split
  · exact Or.inl rfl
  · split
    · exact Or.inl rfl
    · simp only [tryCatch_fst, createCourseTry]
      split
      · exact Or.inl rfl
      · rename_i doc _
        split
        · exact Or.inl rfl
        · rcases courses_create_fst_cases st doc with h | h
          · left
            split <;> simp_all
          · right
            refine ⟨doc, ?_⟩
            split <;> simp_all

theorem addLectures_fst_cases (env : Env) (req : Request) (st : State) :
    (addLectures env req st).1 = st
      ∨ ∃ c lecture, c ∈ st.courses ∧ lecture.course = c._id
          ∧ (addLectures env req st).1 = { st with lectures := st.lectures ++ [lecture] } := by
  simp only [addLectures, tryCatch_fst]
  unfold addLecturesTry
  split
  · exact Or.inl rfl
  · split
    · exact Or.inl rfl
    · split
      · exact Or.inl rfl
      · rename_i course hfind
        have hc := (courses_findById_some hfind).2
        split
        · exact Or.inl rfl
        · exact Or.inl rfl
        · rename_i title description _ _
          split
          · exact Or.inl rfl
          · split
            · exact Or.inl rfl
            · rename_i file _
              simp only
              split
              · exact Or.inl rfl
              · generalize hdoc : Lecture.mk env.newId title description course._id
                  (if file.truthy = true then (file.optProp "path").or file else undefined) = doc
                have hcourse : doc.course = course._id := by rw [← hdoc]
                rcases lecture_create_fst_cases st doc with h | h
                · left
                  split <;> simp_all
                · right
                  refine ⟨course, doc, hc, hcourse, ?_⟩
                  split <;> simp_all

theorem deleteLecture_fst_cases (env : Env) (req : Request) (st : State) :
    (deleteLecture env req st).1.courses = st.courses
      ∧ (deleteLecture env req st).1.users = st.users
      ∧ ∀ l ∈ (deleteLecture env req st).1.lectures, l ∈ st.lectures := by
  simp only [deleteLecture, tryCatch_fst]
  unfold deleteLectureTry
  split
  · exact ⟨rfl, rfl, fun _ h => h⟩
  · split
    · exact ⟨rfl, rfl, fun _ h => h⟩
    · split
      · simp
      · refine ⟨by simp [Lecture.deleteOne], by simp [Lecture.deleteOne], ?_⟩
        intro l hl
        simp only [Lecture.deleteOne, safeDeleteFile_lectures] at hl
        exact List.mem_of_mem_eraseP hl

theorem User.mem_replace {u x : User} {l : List User} (h : x ∈ User.replace u l) :
    x = u ∨ x ∈ l := by
  induction l with
  | nil => cases h
  | cons y ys ih =>
    unfold User.replace at h
    split at h
    · rcases List.mem_cons.1 h with h | h
      · exact Or.inl h
      · exact Or.inr (List.mem_cons_of_mem _ h)
    · rcases List.mem_cons.1 h with h | h
      · exact Or.inr (h ▸ List.mem_cons_self _ _)
      · rcases ih h with h | h
        · exact Or.inl h
        · exact Or.inr (List.mem_cons_of_mem _ h)

theorem updateRole_fst_cases (env : Env) (req : Request) (st : State) :
    (updateRole env req st).1.courses = st.courses
      ∧ (updateRole env req st).1.lectures = st.lectures
      ∧ ∀ u ∈ (updateRole env req st).1.users,
          ∃ u0 ∈ st.users, u.subscription = u0.subscription := by
  have hsame : ∀ u ∈ st.users, ∃ u0 ∈ st.users, u.subscription = u0.subscription :=
    fun u hu => ⟨u, hu, rfl⟩
  simp only [updateRole, tryCatch_fst]
  unfold updateRoleTry
  split
  · exact ⟨rfl, rfl, hsame⟩
  · exact ⟨rfl, rfl, hsame⟩
  · split
    · exact ⟨rfl, rfl, hsame⟩
    · split
      · exact ⟨rfl, rfl, hsame⟩
      · rename_i found hfind
        split
        · exact ⟨rfl, rfl, hsame⟩
        · refine ⟨rfl, rfl, ?_⟩
          intro u hu
          rcases User.mem_replace hu with h | h
          · exact ⟨found, (user_findById_some hfind).2, by rw [h]⟩
          · exact hsame u h

theorem applyProfile_subscription (name email avatar : JsVal) (user : User) :
    (applyProfile name email avatar user).subscription = user.subscription := by
  unfold applyProfile
  repeat' split
  all_goals rfl

theorem updateUser_fst_cases (env : Env) (req : Request) (st : State) :
    (updateUser env req st).1.courses = st.courses
      ∧ (updateUser env req st).1.lectures = st.lectures
      ∧ ∀ u ∈ (updateUser env req st).1.users,
          ∃ u0 ∈ st.users, u.subscription = u0.subscription := by
  have hsame : ∀ u ∈ st.users, ∃ u0 ∈ st.users, u.subscription = u0.subscription :=
    fun u hu => ⟨u, hu, rfl⟩
  simp only [updateUser, tryCatch_fst]
  unfold updateUserTry
  split
  · exact ⟨rfl, rfl, hsame⟩
  · exact ⟨rfl, rfl, hsame⟩
  · exact ⟨rfl, rfl, hsame⟩
  · split
    · exact ⟨rfl, rfl, hsame⟩
    · split
      · exact ⟨rfl, rfl, hsame⟩
      · split
        · exact ⟨rfl, rfl, hsame⟩
        · rename_i found hfind
          split
          · exact ⟨rfl, rfl, hsame⟩
          · refine ⟨rfl, rfl, ?_⟩
            intro u hu
            rcases User.mem_replace hu with h | h
            · exact ⟨found, (user_findById_some hfind).2, by
                rw [h, applyProfile_subscription]⟩
            · exact hsame u h

/-- A state with the same courses, lectures among the old ones and subscriptions among
the old ones is consistent when the old one is. -/
theorem Consistent.of_shrink {st st' : State} (h : Consistent st)
    (hcourses : st'.courses = st.courses) (hlectures : ∀ l ∈ st'.lectures, l ∈ st.lectures)
    (husers : ∀ u ∈ st'.users, ∃ u0 ∈ st.users, u.subscription = u0.subscription) :
    Consistent st' := by
  refine ⟨fun l hl => ?_, fun u hu s hs => ?_⟩
  · rw [hcourses]
    exact h.1 l (hlectures l hl)
  · rw [hcourses]
    obtain ⟨u0, hu0, hsub⟩ := husers u hu
    exact h.2 u0 hu0 s (hsub ▸ hs)

theorem Consistent.deleteCourse {env : Env} {req : Request} {st : State} (h : Consistent st)
    (hdb : ∀ k, env.dbFault k = none) : Consistent (deleteCourse env req st).1 := by
  cases hfind : Courses.findById st req.paramsId with
  | none => rw [deleteCourse_of_missing (hdb 0) hfind]; exact h
  | some c =>
    have hreq := (courses_findById_some hfind).1
    rw [deleteCourse_of_found hfind hdb]
    have hkeep : ∀ x ∈ st.courses, x._id ≠ c._id →
        ∃ y ∈ st.courses.eraseP (fun y => y._id == c._id), y._id = x._id := by
      intro x hx hne
      refine ⟨x, ?_, rfl⟩
      rw [List.mem_eraseP_of_neg (by simpa using hne)]
      exact hx
    simp only [hreq, User.pullSubscription, Courses.deleteOne, Lecture.deleteMany, afterAssets,
      safeDeleteFile_courses, deleteVideos_courses, safeDeleteFile_lectures,
      deleteVideos_lectures, safeDeleteFile_users, deleteVideos_users, Consistent]
    refine ⟨fun l hl => ?_, fun u hu s hs => ?_⟩
    · obtain ⟨hl1, hl2⟩ := List.mem_filter.1 hl
      obtain ⟨x, hx, hxl⟩ := h.1 l hl1
      have hne : x._id ≠ c._id := by
        rw [hxl]
        simpa using hl2
      obtain ⟨y, hy, hyx⟩ := hkeep x hx hne
      exact ⟨y, hy, hyx.trans hxl⟩
    · obtain ⟨u0, hu0, rfl⟩ := List.mem_map.1 hu
      obtain ⟨hs1, hs2⟩ := List.mem_filter.1 hs
      obtain ⟨x, hx, hxs⟩ := h.2 u0 hu0 s hs1
      have hne : x._id ≠ c._id := by
        rw [hxs]
        simpa using hs2
      obtain ⟨y, hy, hyx⟩ := hkeep x hx hne
      exact ⟨y, hy, hyx.trans hxs⟩

theorem Consistent.run {op : Op} {st : State} (h : Consistent st) (hop : op.completes) :
    Consistent (op.run st) := by
  cases op with
  | createCourse env req =>
    rcases createCourse_fst_cases env req st with h' | ⟨doc, h'⟩
    · simp only [Op.run, h']; exact h
    · simp only [Op.run, h']
      refine ⟨fun l hl => ?_, fun u hu s hs => ?_⟩
      · obtain ⟨c, hc, hcl⟩ := h.1 l hl
        exact ⟨c, List.mem_append_left _ hc, hcl⟩
      · obtain ⟨c, hc, hcs⟩ := h.2 u hu s hs
        exact ⟨c, List.mem_append_left _ hc, hcs⟩
  | addLectures env req =>
    rcases addLectures_fst_cases env req st with h' | ⟨c, lecture, hc, hcourse, h'⟩
    · simp only [Op.run, h']; exact h
    · simp only [Op.run, h']
      refine ⟨fun l hl => ?_, h.2⟩
      rcases List.mem_append.1 hl with hl | hl
      · exact h.1 l hl
      · rw [List.mem_singleton.1 hl]
        exact ⟨c, hc, hcourse.symm⟩
  | deleteLecture env req =>
    obtain ⟨h1, h2, h3⟩ := deleteLecture_fst_cases env req st
    exact h.of_shrink h1 h3 (fun u hu => ⟨u, h2 ▸ hu, rfl⟩)
  | deleteCourse env req => exact h.deleteCourse hop
  | updateRole env req =>
    obtain ⟨h1, h2, h3⟩ := updateRole_fst_cases env req st
    exact h.of_shrink h1 (fun l hl => h2 ▸ hl) h3
  | updateUser env req =>
    obtain ⟨h1, h2, h3⟩ := updateUser_fst_cases env req st
    exact h.of_shrink h1 (fun l hl => h2 ▸ hl) h3

/-- A cascade that is cut short is outside of the invariant: when the `updateMany` of
`deleteCourse` is rejected, the handler answers 500 and leaves user `u1` subscribed to the
deleted course `c1`. -/
theorem deleteCourse_interrupted_dangles :
    Consistent sampleState
      ∧ (deleteCourse interruptedEnv (idRequest "c1") sampleState).2
        = .sent ⟨500, obj [("message", str "Failed to delete course"),
            ("error", str "connection closed")]⟩
      ∧ ¬ Consistent (deleteCourse interruptedEnv (idRequest "c1") sampleState).1 :=
  ⟨by decide, rfl, by decide⟩

/-- C10: from a state in which every lecture references a course of the collection and
every subscription names a course of the collection, any finite sequence of calls of
`createCourse`, `addLectures`, `deleteLecture`, `deleteCourse`, `updateRole` and
`updateUser`, run one after the other and each fully completed (no database call of a
`deleteCourse` cascade rejects), ends in a state with the same two properties. -/
theorem consistent_runAll (ops : List Op) (st : State) (h : Consistent st)
    (hops : ∀ op ∈ ops, op.completes) : Consistent (runAll ops st) := by
  induction ops generalizing st with
  | nil => exact h
  | cons op ops ih =>
    exact ih (op.run st) (h.run (hops op (List.mem_cons_self _ _)))
      (fun op' hop' => hops op' (List.mem_cons_of_mem _ hop'))

/-- Witness of C10: a lecture is added to `c2`, course `c1` is deleted, a role is changed. -/
theorem consistent_runAll_witness :
    Consistent (runAll
      [Op.addLectures sampleEnv (lectureRequest "c2"), Op.deleteCourse sampleEnv (idRequest "c1"),
        Op.updateRole sampleEnv (roleRequest "u2" "admin")] sampleState) :=
  consistent_runAll _ sampleState (by decide) (by
    intro op hop
    simp only [List.mem_cons, List.mem_singleton, List.not_mem_nil, or_false] at hop
    rcases hop with rfl | rfl | rfl
    · trivial
    · exact fun _ => rfl
    · trivial)

/-! ## What the handlers do catch -/

theorem typeError_ne : typeError ≠ undefined ∧ typeError ≠ null := by
  constructor <;> intro h <;> cases h

theorem getProp_error {v e : JsVal} {k : String} (h : getProp v k = .error e) :
    e ≠ undefined ∧ e ≠ null := by
  cases v <;> simp [getProp] at h <;> subst h <;> exact typeError_ne

theorem getProp_ok_of_ne {e : JsVal} (h : e ≠ undefined ∧ e ≠ null) (k : String) :
    ∃ v, getProp e k = .ok v :=
  ⟨optProp e k, getProp_eq_optProp h.1 h.2 k⟩

theorem awaitDb_error {env : Env} (henv : env.throwsValues) {k : Nat} {e : JsVal}
    (h : awaitDb env k = .error e) : e ≠ undefined ∧ e ≠ null := by
  unfold awaitDb at h
  split at h
  · rename_i e' he
    cases h
    exact henv.1 k e he
  · cases h

theorem Responded.of_failureCatch {body : State × Except JsVal Response} (message : String)
    (h : Catchable body.2) : Responded (tryCatch body (failureCatch message)).2 := by
  obtain ⟨st, result⟩ := body
  cases result with
  | ok r => exact ⟨r, rfl, h⟩
  | error e =>
    obtain ⟨v, hv⟩ := getProp_ok_of_ne h "message"
    refine ⟨⟨500, obj [("message", str message), ("error", v)]⟩, ?_, by simp⟩
    simp [tryCatch, failureCatch, hv, bind, Except.bind, pure, Except.pure]

theorem deleteLectureTry_catchable {env : Env} (henv : env.throwsValues) (req : Request)
    (st : State) : Catchable (deleteLectureTry env req st).2 := by
  unfold deleteLectureTry
  repeat' split
  all_goals first
    | exact awaitDb_error henv (by assumption)
    | simp [Catchable]

theorem deleteCourseTry_catchable {env : Env} (henv : env.throwsValues) (req : Request)
    (st : State) : Catchable (deleteCourseTry env req st).2 := by
  unfold deleteCourseTry
  repeat' split
  all_goals first
    | exact awaitDb_error henv (by assumption)
    | simp [Catchable]

theorem getAllStatsTry_catchable {env : Env} (henv : env.throwsValues) (st : State) :
    Catchable (getAllStatsTry env st).2 := by
  unfold getAllStatsTry
  repeat' split
  all_goals first
    | exact awaitDb_error henv (by assumption)
    | simp [Catchable]

theorem getAllUserTry_catchable {env : Env} (henv : env.throwsValues) (req : Request)
    (st : State) : Catchable (getAllUserTry env req st).2 := by
  unfold getAllUserTry
  repeat' split
  all_goals first
    | exact awaitDb_error henv (by assumption)
    | exact getProp_error (by assumption)
    | simp [Catchable]

theorem updateRoleTry_catchable {env : Env} (henv : env.throwsValues) (req : Request)
    (st : State) : Catchable (updateRoleTry env req st).2 := by
  unfold updateRoleTry
  repeat' split
  all_goals first
    | exact awaitDb_error henv (by assumption)
    | exact getProp_error (by assumption)
    | simp [Catchable]

theorem updateUserTry_catchable {env : Env} (henv : env.throwsValues) (req : Request)
    (st : State) : Catchable (updateUserTry env req st).2 := by
  unfold updateUserTry
  repeat' split
  all_goals first
    | exact awaitDb_error henv (by assumption)
    | exact getProp_error (by assumption)
    | exact typeError_ne
    | simp [Catchable]

theorem parseOrEmpty_error {env : Env} (henv : env.throwsValues) {field e : JsVal}
    (h : parseOrEmpty env field = .error e) : e ≠ undefined ∧ e ≠ null := by
  unfold parseOrEmpty at h
  split at h
  · exact henv.2 field e h
  · cases h

theorem createCourseDoc_error {env : Env} (henv : env.throwsValues) {req : Request}
    {title description createdBy duration price category image e : JsVal}
    (h : createCourseDoc env req title description createdBy duration price category image
      = .error e) : e ≠ undefined ∧ e ≠ null := by
  simp only [createCourseDoc, bind, Except.bind, pure, Except.pure] at h
  repeat' split at h
  all_goals first
    | (cases h; exact getProp_error (by assumption))
    | (cases h; exact parseOrEmpty_error henv (by assumption))
    | cases h

theorem courses_create_error {st st' : State} {doc : Course} {e : JsVal}
    (h : Courses.create st doc = (st', .error e)) : e = duplicateKey := by
  unfold Courses.create at h
  split at h
  · injection h with _ h2
    injection h2 with h3
    exact h3.symm
  · injection h with _ h2
    cases h2

theorem lecture_create_error {st st' : State} {doc : Lecture} {e : JsVal}
    (h : Lecture.create st doc = (st', .error e)) : e = duplicateKey := by
  unfold Lecture.create at h
  split at h
  · injection h with _ h2
    injection h2 with h3
    exact h3.symm
  · injection h with _ h2
    cases h2

theorem duplicateKey_ne : duplicateKey ≠ undefined ∧ duplicateKey ≠ null := by
  constructor <;> intro h <;> cases h

theorem createCourseTry_catchable {env : Env} (henv : env.throwsValues) (req : Request)
    (st : State) (title description createdBy duration price category image : JsVal) :
    Catchable
      (createCourseTry env req st title description createdBy duration price category image).2 := by
  unfold createCourseTry
  split
  · exact createCourseDoc_error henv (by assumption)
  · split
    · exact awaitDb_error henv (by assumption)
    · split
      · rename_i hcreate
        have he := courses_create_error hcreate
        subst he
        exact duplicateKey_ne
      · simp [Catchable]

theorem Responded.of_createCourseCatch {body : State × Except JsVal Response}
    (h : Catchable body.2) : Responded (tryCatch body createCourseCatch).2 := by
  obtain ⟨st, result⟩ := body
  cases result with
  | ok r => exact ⟨r, rfl, h⟩
  | error e =>
    obtain ⟨v, hv⟩ := getProp_ok_of_ne h "message"
    obtain ⟨w, hw⟩ := getProp_ok_of_ne h "errors"
    refine ⟨⟨500, obj [("message", str "Failed to create course"), ("error", v),
      ("details", JsVal.or w (obj []))]⟩, ?_, by simp⟩
    simp [tryCatch, createCourseCatch, hv, hw, bind, Except.bind, pure, Except.pure]

theorem mapM_validationEntry_ok (values : List JsVal)
    (h : ∀ v ∈ values, v ≠ undefined ∧ v ≠ null) :
    ∃ out, values.mapM validationEntry = .ok out := by
  induction values with
  | nil => exact ⟨[], rfl⟩
  | cons v vs ih =>
    obtain ⟨out, hout⟩ := ih (fun w hw => h w (List.mem_cons_of_mem _ hw))
    have hv := h v (List.mem_cons_self _ _)
    refine ⟨obj [("field", optProp v "path"), ("message", optProp v "message")] :: out, ?_⟩
    rw [List.mapM_cons, hout]
    simp only [validationEntry, getProp_eq_optProp hv.1 hv.2]
    rfl

theorem addLecturesCatch_ok (env : Env) {e : JsVal} (hne : e ≠ undefined ∧ e ≠ null)
    (hshape : ValidationShaped e) :
    ∃ r, addLecturesCatch env e = .ok r ∧ r.status ∈ [200, 201, 400, 404, 500] := by
  cases hname : isStr (optProp e "name") "ValidationError" with
  | true =>
    obtain ⟨entries, hentries, hall⟩ := hshape hname
    obtain ⟨out, hout⟩ := mapM_validationEntry_ok (entries.map Prod.snd) (by
      intro v hv
      obtain ⟨entry, hentry, rfl⟩ := List.mem_map.1 hv
      exact hall entry hentry)
    refine ⟨⟨400, obj [("message", str "Validation Error"), ("errors", arr out)]⟩, ?_, by simp⟩
    simp only [addLecturesCatch, getProp_eq_optProp hne.1 hne.2, hentries, objectValues]
    simp only [bind, Except.bind, hname, if_true, hout]
    rfl
  | false =>
    cases hdev : env.development with
    | true =>
      refine ⟨⟨500, obj [("message", str "Failed to add lecture"), ("error", optProp e "message"),
        ("name", optProp e "name"), ("details", optProp e "stack")]⟩, ?_, by simp⟩
      simp [addLecturesCatch, getProp_eq_optProp hne.1 hne.2, hname, hdev, bind, Except.bind,
        pure, Except.pure]
    | false =>
      refine ⟨⟨500, obj [("message", str "Failed to add lecture"), ("error", optProp e "message"),
        ("name", optProp e "name"), ("details", undefined)]⟩, ?_, by simp⟩
      simp [addLecturesCatch, getProp_eq_optProp hne.1 hne.2, hname, hdev, bind, Except.bind,
        pure, Except.pure]

theorem typeError_shaped : ValidationShaped typeError := by
  intro h
  simp [typeError, optProp, lookup, isStr] at h

theorem duplicateKey_shaped : ValidationShaped duplicateKey := by
  intro h
  simp [duplicateKey, optProp, lookup, isStr] at h

theorem getProp_error_eq {v e : JsVal} {k : String} (h : getProp v k = .error e) :
    e = typeError := by
  cases v <;> simp [getProp] at h <;> exact h.symm

theorem awaitDb_error_shaped {env : Env} (henv : env.validationShaped) {k : Nat} {e : JsVal}
    (h : awaitDb env k = .error e) : ValidationShaped e := by
  unfold awaitDb at h
  split at h
  · rename_i e' he
    cases h
    exact henv k e he
  · cases h

theorem lectureFile_error {req : Request} {e : JsVal} (h : lectureFile req = .error e) :
    e = typeError := by
  unfold lectureFile at h
  simp only at h
  split at h
  · cases h
  · exact getProp_error_eq h

theorem addLecturesTry_catchable {env : Env} (henv : env.throwsValues)
    (hshape : env.validationShaped) (req : Request) (st : State) :
    LectureCatchable (addLecturesTry env req st).2 := by
  have htype : LectureCatchable (.error typeError) := ⟨typeError_ne, typeError_shaped⟩
  have hdb : ∀ {k e}, awaitDb env k = .error e → LectureCatchable (.error e) :=
    fun h => ⟨awaitDb_error henv h, awaitDb_error_shaped hshape h⟩
  have hprop : ∀ {v k e}, getProp v k = .error e → LectureCatchable (.error e) :=
    fun h => getProp_error_eq h ▸ htype
  unfold addLecturesTry
  split
  · simp [LectureCatchable]
  · split
    · exact hdb (by assumption)
    · split
      · simp [LectureCatchable]
      · split
        · exact hprop (by assumption)
        · exact hprop (by assumption)
        · split
          · simp [LectureCatchable]
          · split
            · rename_i h
              rw [lectureFile_error h]
              exact htype
            · simp only
              split
              · exact hdb (by assumption)
              · split
                · rename_i hcreate
                  have he := lecture_create_error hcreate
                  subst he
                  exact ⟨duplicateKey_ne, duplicateKey_shaped⟩
                · simp [LectureCatchable]

/-- C9: every handler (`createCourse`, `addLectures`, `deleteLecture`, `deleteCourse`,
`getAllStats`, `getAllUser`, `updateRole`, `updateUser`) ends by sending a response with
status 200, 201, 400, 404 or 500 and lets no exception escape, for every request, every
state and every outcome of the database calls, the `unlink`s and `JSON.parse`. A request
without a body is one whose `req.body` is the empty object the parsers of `index.js` leave
(`createCourse` needs `req.body` not to be `undefined` or `null`; the other handlers need
nothing of the request); a rejection is an error value as the drivers throw them, of any
name and with any fields: not `undefined` or `null`, and with the `errors` object Mongoose
attaches when its name is `ValidationError`. -/
theorem handlers_respond (env : Env) (req : Request) (st : State)
    (henv : env.throwsValues) (hshape : env.validationShaped) :
    (req.body ≠ undefined ∧ req.body ≠ null → Responded (createCourse env req st).2)
      ∧ Responded (addLectures env req st).2
      ∧ Responded (deleteLecture env req st).2
      ∧ Responded (deleteCourse env req st).2
      ∧ Responded (getAllStats env req st).2
      ∧ Responded (getAllUser env req st).2
      ∧ Responded (updateRole env req st).2
      ∧ Responded (updateUser env req st).2 := by
  refine ⟨?_, ?_, Responded.of_failureCatch _ (deleteLectureTry_catchable henv req st),
    Responded.of_failureCatch _ (deleteCourseTry_catchable henv req st),
    Responded.of_failureCatch _ (getAllStatsTry_catchable henv st),
    Responded.of_failureCatch _ (getAllUserTry_catchable henv req st),
    Responded.of_failureCatch _ (updateRoleTry_catchable henv req st),
    Responded.of_failureCatch _ (updateUserTry_catchable henv req st)⟩
  · intro hbody
    simp only [createCourse, createCourseFields_ok hbody.1 hbody.2]
    split
    · exact ⟨missingFieldsResponse, rfl, by simp [missingFieldsResponse]⟩
    · exact Responded.of_createCourseCatch (createCourseTry_catchable henv req st _ _ _ _ _ _ _)
  · have h := addLecturesTry_catchable henv hshape req st
    unfold addLectures
    generalize addLecturesTry env req st = body at h
    obtain ⟨st', result⟩ := body
    cases result with
    | ok r => exact ⟨r, rfl, h⟩
    | error e =>
      obtain ⟨r, hr, hstatus⟩ := addLecturesCatch_ok env h.1 h.2
      exact ⟨r, by simp [tryCatch, hr], hstatus⟩

theorem failingEnv_throwsValues : failingEnv.throwsValues := by
  constructor
  · intro k e h
    simp only [failingEnv, Option.some.injEq] at h
    subst h
    constructor <;> intro h <;> cases h
  · intro v e h
    have he : e = obj [("name", str "SyntaxError"), ("message", str "Unexpected token")] := by
      simp only [failingEnv, sampleEnv, sampleJsonParse] at h
      split at h <;> first | (injection h with h; exact h.symm) | cases h
    subst he
    constructor <;> intro h <;> cases h

theorem failingEnv_validationShaped : failingEnv.validationShaped := by
  intro k e h
  simp only [failingEnv, Option.some.injEq] at h
  subst h
  intro hname
  simp [optProp, lookup, isStr] at hname

theorem validationEnv_throwsValues : validationEnv.throwsValues := by
  constructor
  · intro k e h
    simp only [validationEnv] at h
    split at h
    · injection h with h
      subst h
      constructor <;> intro h <;> cases h
    · cases h
  · intro v e h
    have he : e = obj [("name", str "SyntaxError"), ("message", str "Unexpected token")] := by
      simp only [validationEnv, sampleEnv, sampleJsonParse] at h
      split at h <;> first | (injection h with h; exact h.symm) | cases h
    subst he
    constructor <;> intro h <;> cases h

theorem validationEnv_validationShaped : validationEnv.validationShaped := by
  intro k e h
  simp only [validationEnv] at h
  split at h
  · injection h with h
    subst h
    intro _
    refine ⟨[("title", obj [("path", str "title"), ("message", str "Path title is required.")])],
      rfl, ?_⟩
    intro entry hentry
    rw [List.mem_singleton.1 hentry]
    constructor <;> intro h <;> cases h
  · cases h

/-- Witness of C9: a request with an empty body and one with a complete body while every
database call is rejected, a cascade with every database call rejected, and a lecture
whose insert is rejected by a Mongoose `ValidationError`, all on the sample state. -/
theorem handlers_respond_witness :
    createCourse failingEnv (bodyRequest (obj [])) sampleState
        = (sampleState, .sent missingFieldsResponse)
      ∧ Responded (createCourse failingEnv (bodyRequest syllabusCourseBody) sampleState).2
      ∧ Responded (deleteCourse failingEnv (idRequest "c1") sampleState).2
      ∧ Responded (addLectures validationEnv (lectureRequest "c1") sampleState).2
      ∧ (addLectures validationEnv (lectureRequest "c1") sampleState).2
        = .sent ⟨400, obj [("message", str "Validation Error"),
            ("errors", arr [obj [("field", str "title"),
              ("message", str "Path title is required.")]])]⟩ :=
  ⟨rfl,
    (handlers_respond failingEnv (bodyRequest syllabusCourseBody) sampleState
      failingEnv_throwsValues failingEnv_validationShaped).1
      ⟨by simp [bodyRequest, syllabusCourseBody], by simp [bodyRequest, syllabusCourseBody]⟩,
    (handlers_respond failingEnv (idRequest "c1") sampleState
      failingEnv_throwsValues failingEnv_validationShaped).2.2.2.1,
    (handlers_respond validationEnv (lectureRequest "c1") sampleState
      validationEnv_throwsValues validationEnv_validationShaped).2.1,
    rfl⟩

end VHASS
